import Mathlib

/-!
Verification of the set-operation and inheritance-expansion planner of
`src/backend/optimizer/prep/prepunion.c` (Greenplum fork of PostgreSQL).

The C code is shallowly embedded: each planner function that a claim touches
is translated into an executable Lean definition over explicit data types.
External collaborators (the general sub-query planner, the catalog, the cost
primitives) are passed in as explicit parameters or as fields of a `Catalog`
record, mirroring how the C code consumes them through narrow interfaces.
Fallible code (ereport/elog ERROR) is modelled with `Except String`.
-/

namespace Prepunion

/-! ## Core data types (from the node definitions used by prepunion.c) -/

/-- `Var` node: a reference to column `varattno` of range-table entry `varno`,
`varlevelsup` query levels up.  `varattno` is an `Int` because system
attributes use negative numbers and 0 denotes a whole-row reference. -/
structure Var where
  varno : Nat
  varattno : Int
  vartype : Nat
  vartypmod : Int
  varcollid : Nat
  varlevelsup : Nat
  varnoold : Nat
  deriving Repr, DecidableEq

/-- `makeVar` from makefuncs.c: also initializes `varnoold` to `varno`. -/
def makeVar (varno : Nat) (varattno : Int) (vartype : Nat) (vartypmod : Int)
    (varcollid : Nat) (varlevelsup : Nat) : Var :=
  { varno := varno, varattno := varattno, vartype := vartype,
    vartypmod := vartypmod, varcollid := varcollid,
    varlevelsup := varlevelsup, varnoold := varno }

/-- `Const` node (only the fields prepunion.c reads or sets). -/
structure PgConst where
  consttype : Nat
  consttypmod : Int
  constcollid : Nat
  constvalue : Int
  constisnull : Bool
  deriving Repr, DecidableEq

/-- Expression nodes produced or consumed by the translated functions.
`coerce` stands for the tree returned by the external `coerce_to_common_type`
collaborator (parse_coerce.c, outside this subsystem): all prepunion.c relies
on is that its result has the requested type.  `convertRowtype` and `rowExpr`
are the `ConvertRowtypeExpr` and `RowExpr` nodes built for whole-row
translation. -/
inductive Expr where
  | var (v : Var)
  | const (c : PgConst)
  | relabel (arg : Expr) (resulttype : Nat) (resulttypmod : Int) (resultcollid : Nat)
  | coerce (arg : Expr) (targettype : Nat)
  | convertRowtype (arg : Expr) (resulttype : Nat)
  | rowExpr (args : List Expr) (row_typeid : Nat) (colnames : List String)
  deriving Repr

/-- `exprType` of nodeFuncs.c restricted to the node kinds above.  The
`coerce` case returns the requested type, which is the contract of
`coerce_to_common_type`. -/
def exprType : Expr → Nat
  | .var v => v.vartype
  | .const c => c.consttype
  | .relabel _ t _ _ => t
  | .coerce _ t => t
  | .convertRowtype _ t => t
  | .rowExpr _ t _ => t

/-- `exprTypmod` restricted to the node kinds above; coercion results and row
constructors expose the unspecified typmod -1. -/
def exprTypmod : Expr → Int
  | .var v => v.vartypmod
  | .const c => c.consttypmod
  | .relabel _ _ m _ => m
  | .coerce _ _ => -1
  | .convertRowtype _ _ => -1
  | .rowExpr _ _ _ => -1

/-- `exprCollation` restricted to the node kinds above.  A fresh coercion
result has no assigned collation (`assign_expr_collations` is never run on
nodes generated here, as the comment in `generate_setop_tlist` notes), hence
the invalid oid 0. -/
def exprCollation : Expr → Nat
  | .var v => v.varcollid
  | .const c => c.constcollid
  | .relabel _ _ _ c => c
  | .coerce _ _ => 0
  | .convertRowtype _ _ => 0
  | .rowExpr _ _ _ => 0

/-- Target-list entry (`TargetEntry`).  `makeTargetEntry` leaves
`ressortgroupref` zero; callers that want a sort/group reference set it
afterwards, exactly as in the C code. -/
structure TargetEntry where
  expr : Expr
  resno : Nat
  resname : String
  resjunk : Bool
  ressortgroupref : Nat
  deriving Repr

/-- `makeTargetEntry` from makefuncs.c: `ressortgroupref` starts at 0. -/
def makeTargetEntry (expr : Expr) (resno : Nat) (resname : String)
    (resjunk : Bool) : TargetEntry :=
  { expr := expr, resno := resno, resname := resname, resjunk := resjunk,
    ressortgroupref := 0 }

/-- `SortGroupClause` (only the field prepunion.c writes). -/
structure SortGroupClause where
  tleSortGroupRef : Nat
  eqop : Nat
  sortop : Nat
  deriving Repr, DecidableEq

/-! ## choose_hashed_setop (prepunion.c lines 1031-1135) -/

/-- Startup/total cost pair of a path, as used by the cost collaborators. -/
structure Cost where
  startup : ℚ
  total : ℚ
  deriving Repr, DecidableEq

/-- Modelled from the spec: the external cost primitive "a comparison of two
cost estimates under a target row fraction" (§6), i.e.
`compare_fractional_path_costs` of pathnode.c, which is not part of this
source.  Per §4.4 both costs are adjusted by the fraction-needed hint — a
fragment needing only a prefix of the rows favors the cheaper-to-start
option — so for a meaningful fraction the adjusted cost interpolates from
startup cost toward total cost; outside (0,1) the total cost decides. -/
def fractional_cost (c : Cost) (fraction : ℚ) : ℚ :=
  if fraction ≤ 0 ∨ 1 ≤ fraction then c.total
  else c.startup + fraction * (c.total - c.startup)

/-- Modelled from the spec (§4.4, §6): three-way comparison of the
fraction-adjusted costs; negative means the first path is strictly cheaper. -/
def compare_fractional_path_costs (path1 path2 : Cost) (fraction : ℚ) : Int :=
  if fractional_cost path1 fraction < fractional_cost path2 fraction then -1
  else if fractional_cost path2 fraction < fractional_cost path1 fraction then 1
  else 0

/-- `MAXALIGN`: round a size up to the next multiple of the maximum alignment
(8 bytes on the supported 64-bit platforms). -/
def MAXALIGN (n : Nat) : Nat := ((n + 7) / 8) * 8

/-- `SizeofMinimalTupleHeader`: a build constant from htup_details.h (not in
this source).  Its exact value never matters for the properties proved here;
we fix the common 64-bit value. -/
def SizeofMinimalTupleHeader : Nat := 16

/-- `choose_hashed_setop` (lines 1031-1135): should a set operation use
hashing?  The checks `grouping_is_sortable`/`grouping_is_hashable`, the GUC
`enable_hashagg`, the input path width, and the dummy cost paths built by the
external `cost_agg`/`cost_sort`/`cost_group` collaborators enter as
parameters.  Returns `true` for hashing, `false` for sorting, or an
unsupported-feature error naming the construct. -/
def choose_hashed_setop (can_sort can_hash enable_hashagg : Bool)
    (input_width : Nat) (dNumGroups dNumOutputRows : ℚ) (work_mem : Nat)
    (hashed_p sorted_p : Cost) (root_tuple_fraction : ℚ)
    (construct : String) : Except String Bool :=
  if can_hash && can_sort then
    -- we have a meaningful choice to make, continue ...
    -- Prefer sorting when enable_hashagg is off
    if !enable_hashagg then .ok false
    else
      -- Don't do it if it doesn't look like the hashtable will fit into
      -- work_mem.  (A Hashed SetOp uses the upstream hash table
      -- implementation unmodified, and cannot spill.)
      let hashentrysize := MAXALIGN input_width + MAXALIGN SizeofMinimalTupleHeader
      if (hashentrysize : ℚ) * dNumGroups > (work_mem : ℚ) * 1024 then .ok false
      else
        -- Make the decision using the top-level tuple fraction, converting
        -- an absolute count (LIMIT) into fractional form first.
        let tuple_fraction :=
          if root_tuple_fraction ≥ 1 then root_tuple_fraction / dNumOutputRows
          else root_tuple_fraction
        if compare_fractional_path_costs hashed_p sorted_p tuple_fraction < 0 then
          -- Hashed is cheaper, so use it
          .ok true
        else .ok false
  else if can_hash then .ok true
  else if can_sort then .ok false
  else .error ("could not implement " ++ construct)

/-! ## Output-column builders (prepunion.c lines 1148-1455) -/

/-- `INT4OID` from pg_type.h. -/
def INT4OID : Nat := 23

/-- `OUTER_VAR`: the synthetic varno referring to the outer subplan
(primnodes.h); the CDB/MPP code generates Append tlist Vars with it. -/
def OUTER_VAR : Nat := 65001

/-- `IsA(expr, Const)` check. -/
def Expr.isConst : Expr → Bool
  | .const _ => true
  | _ => false

/-- The `forthree` loop of `generate_setop_tlist` (lines 1165-1253), with the
running `resno` made explicit.  The loop stops when `colTypes`,
`colCollations` or `input_tlist` is exhausted; `refnames_tlist` is chased
manually in the C and running off its end would dereference NULL, which we
model as `none`. -/
def generate_setop_tlist_loop (varno : Nat) (hack_constants : Bool) :
    Nat → List Nat → List Nat → List TargetEntry → List TargetEntry →
    Option (List TargetEntry)
  | _, [], _, _, _ => some []
  | _, _ :: _, [], _, _ => some []
  | _, _ :: _, _ :: _, [], _ => some []
  | _, _ :: _, _ :: _, _ :: _, [] => none
  | resno, colType :: cts, colColl :: ccs, inputtle :: its, reftle :: rts =>
    -- constants in the input tlist are copied up as-is (only when
    -- hack_constants, i.e. at the first level above a leaf subquery);
    -- otherwise reference the input column by position
    let expr1 : Expr :=
      if hack_constants && inputtle.expr.isConst then inputtle.expr
      else .var (makeVar varno (inputtle.resno : Int) (exprType inputtle.expr)
                   (exprTypmod inputtle.expr) (exprCollation inputtle.expr) 0)
    -- coerce to the declared column type when the types differ
    let expr2 := if exprType expr1 ≠ colType then Expr.coerce expr1 colType else expr1
    -- force the exposed collation to the declared one when it differs
    let expr3 :=
      if exprCollation expr2 ≠ colColl then
        Expr.relabel expr2 (exprType expr2) (exprTypmod expr2) colColl
      else expr2
    let tle0 := makeTargetEntry expr3 resno reftle.resname false
    -- all non-resjunk columns in a setop tree get ressortgroupref = resno
    let tle := { tle0 with ressortgroupref := tle0.resno }
    match generate_setop_tlist_loop varno hack_constants (resno + 1) cts ccs its rts with
    | none => none
    | some rest => some (tle :: rest)

/-- `generate_setop_tlist` (lines 1148-1274): output column list for a
set-operation node, plus an optional resjunk constant flag column when
`flag ≥ 0`. -/
def generate_setop_tlist (colTypes colCollations : List Nat) (flag : Int)
    (varno : Nat) (hack_constants : Bool)
    (input_tlist refnames_tlist : List TargetEntry) :
    Option (List TargetEntry) :=
  match generate_setop_tlist_loop varno hack_constants 1 colTypes colCollations
      input_tlist refnames_tlist with
  | none => none
  | some tlist =>
    if flag ≥ 0 then
      some (tlist ++
        [makeTargetEntry (Expr.const ⟨INT4OID, -1, 0, flag, false⟩)
           (tlist.length + 1) "flag" true])
    else some tlist

/-- Inner scan of the typmod-merging pass of `generate_append_tlist` (lines
1319-1352): walk one subplan tlist, skipping resjunk entries, updating the
per-column typmod array in place. -/
def append_typmods_scan (colTypes : List Nat) (first : Bool) :
    List Int → Nat → List TargetEntry → List Int
  | acc, _, [] => acc
  | acc, colindex, subtle :: rest =>
    if subtle.resjunk then append_typmods_scan colTypes first acc colindex rest
    else
      let subtypmod := exprTypmod subtle.expr
      let v :=
        if exprType subtle.expr = colTypes.getD colindex 0 then
          -- if first subplan, copy the typmod; else compare
          if first then subtypmod
          else if subtypmod ≠ acc.getD colindex (-1) then -1
          else acc.getD colindex (-1)
        else -1  -- types disagree, so force typmod to -1
      append_typmods_scan colTypes first (acc.set colindex v) (colindex + 1) rest

/-- The full typmod-merging pass: the C array is palloc'd (undefined until a
subplan covers a column); we initialize the model array to -1, which is only
observable where the C reads uninitialized memory (no subplan at all, or a
subplan shorter than `colTypes`). -/
def compute_append_typmods (colTypes : List Nat)
    (input_tlists : List (List TargetEntry)) : List Int :=
  match input_tlists with
  | [] => List.replicate colTypes.length (-1)
  | t0 :: rest =>
    let acc0 := append_typmods_scan colTypes true
      (List.replicate colTypes.length (-1)) 0 t0
    rest.foldl (fun acc t => append_typmods_scan colTypes false acc 0 t) acc0

/-- The `forthree` build loop of `generate_append_tlist` (lines 1357-1387):
emit one OUTER_VAR reference per declared column. -/
def generate_append_tlist_loop (colTypmods : List Int) :
    Nat → Nat → List Nat → List Nat → List TargetEntry → List TargetEntry
  | _, _, [], _, _ => []
  | _, _, _ :: _, [], _ => []
  | _, _, _ :: _, _ :: _, [] => []
  | resno, colindex, colType :: cts, colColl :: ccs, reftle :: rts =>
    let expr := Expr.var (makeVar OUTER_VAR (resno : Int) colType
      (colTypmods.getD colindex (-1)) colColl 0)
    let tle0 := makeTargetEntry expr resno reftle.resname false
    -- all non-resjunk columns in a setop tree get ressortgroupref = resno
    let tle := { tle0 with ressortgroupref := tle0.resno }
    tle :: generate_append_tlist_loop colTypmods (resno + 1) (colindex + 1) cts ccs rts

/-- `generate_append_tlist` (lines 1294-1409): output column list for a
set-operation Append node — always plain OUTER_VAR references — plus an
optional resjunk flag column that is itself a Var (copied up from the
subplans at runtime). -/
def generate_append_tlist (colTypes colCollations : List Nat) (flag : Bool)
    (input_tlists : List (List TargetEntry))
    (refnames_tlist : List TargetEntry) : List TargetEntry :=
  let colTypmods := compute_append_typmods colTypes input_tlists
  let tlist := generate_append_tlist_loop colTypmods 1 0 colTypes colCollations
    refnames_tlist
  if flag then
    tlist ++
      [makeTargetEntry
         (Expr.var (makeVar OUTER_VAR ((tlist.length + 1 : Nat) : Int) INT4OID (-1) 0 0))
         (tlist.length + 1) "flag" true]
  else tlist

/-- `generate_setop_grouplist` (lines 1422-1455): copy the parse-time
grouping clauses and stamp each with the sortgroupref of the positionally
corresponding non-resjunk output column.  The C asserts — grouplist and
non-resjunk columns must be in bijection, resjunk columns carry ref 0,
non-resjunk columns carry ref = resno, and the copied clauses start
unstamped — are modelled as `none` (a debug build would abort there). -/
def generate_setop_grouplist_loop :
    List SortGroupClause → List TargetEntry → Option (List SortGroupClause)
  | grouplist, [] =>
    -- Assert(lg == NULL): every grouping clause must have been consumed
    if grouplist.isEmpty then some [] else none
  | grouplist, tle :: rest =>
    if tle.resjunk then
      -- resjunk columns should not have sortgrouprefs; ignore them
      if tle.ressortgroupref ≠ 0 then none
      else generate_setop_grouplist_loop grouplist rest
    else
      -- non-resjunk columns should have sortgroupref = resno
      if tle.ressortgroupref ≠ tle.resno then none
      else
        match grouplist with
        | [] => none  -- Assert(lg != NULL)
        | sgc :: lgrest =>
          if sgc.tleSortGroupRef ≠ 0 then none  -- Assert(sgc->tleSortGroupRef == 0)
          else
            match generate_setop_grouplist_loop lgrest rest with
            | none => none
            | some out =>
              some ({ sgc with tleSortGroupRef := tle.ressortgroupref } :: out)

/-- `generate_setop_grouplist` entry point: `op->groupClauses` is deep-copied
(automatic in the pure model) and stamped against the targetlist. -/
def generate_setop_grouplist (groupClauses : List SortGroupClause)
    (targetlist : List TargetEntry) : Option (List SortGroupClause) :=
  generate_setop_grouplist_loop groupClauses targetlist

/-- A one-column input target list used for concrete evaluations: a plain
integer Var with its sortgroupref stamped. -/
def sampleInputTle : TargetEntry := ⟨Expr.var ⟨1, 1, 23, -1, 0, 0, 1⟩, 1, "a", false, 1⟩

/-- A one-column reference-names target list used for concrete evaluations. -/
def sampleRefTle : TargetEntry := ⟨Expr.var ⟨1, 1, 23, -1, 0, 0, 1⟩, 1, "a", false, 0⟩

/-- The value of `generate_setop_tlist [23] [0] 0 1 false [sampleInputTle]
[sampleRefTle]`: the translated column plus the constant flag column. -/
def sampleSetopTlist : List TargetEntry :=
  [⟨Expr.var ⟨1, 1, 23, -1, 0, 0, 1⟩, 1, "a", false, 1⟩,
   ⟨Expr.const ⟨23, -1, 0, 0, false⟩, 2, "flag", true, 0⟩]

/-! ## The set-operation tree and the union planner (lines 556-954) -/

/-- `SetOperation` tag of parsenodes.h (SETOP_NONE never reaches planning). -/
inductive SetOpType where
  | UNION | INTERSECT | EXCEPT
  deriving Repr, DecidableEq

/-- `SetOpCmd` of nodes.h, as chosen at lines 859-871. -/
inductive SetOpCmd where
  | INTERSECT | INTERSECT_ALL | EXCEPT | EXCEPT_ALL
  deriving Repr, DecidableEq

/-- A parsed set-operation tree: a `RangeTblRef` leaf or a
`SetOperationStmt` combine carrying the declared result column types,
collations and parse-time grouping clauses. -/
inductive SetOpNode where
  | rangeTblRef (rtindex : Nat)
  | setOperation (op : SetOpType) (all : Bool) (larg rarg : SetOpNode)
      (colTypes colCollations : List Nat) (groupClauses : List SortGroupClause)
  deriving Repr, DecidableEq

/-- Number of `RangeTblRef` leaves of a set-operation tree. -/
def leafCount : SetOpNode → Nat
  | .rangeTblRef _ => 1
  | .setOperation _ _ l r _ _ _ => leafCount l + leafCount r

/-- `recurse_union_children` (lines 902-954), abstracted over the external
per-child planning: it returns the list of subtrees that get planned
separately (the C produces exactly one path and one tlist per element of
this list).  A child that is a `SetOperationStmt` with the same op, the same
or broader ALL flag, and equal colTypes is folded into the parent's subpath
list; anything else is planned as one unit. -/
def recurse_union_children (top_op : SetOpType) (top_all : Bool)
    (top_colTypes : List Nat) : SetOpNode → List SetOpNode
  | .setOperation op all l r colTypes colCollations groupClauses =>
    if op = top_op ∧ (all = top_all ∨ all = true) ∧ colTypes = top_colTypes then
      recurse_union_children top_op top_all top_colTypes l ++
        recurse_union_children top_op top_all top_colTypes r
    else [.setOperation op all l r colTypes colCollations groupClauses]
  | .rangeTblRef i => [.rangeTblRef i]

/-- The folding condition of `recurse_union_children`, holding at every
nested combine of a subtree (each nested node is compared against the same
top node, exactly as the C passes `top_union` down unchanged). -/
def union_foldable (top_op : SetOpType) (top_all : Bool)
    (top_colTypes : List Nat) : SetOpNode → Bool
  | .rangeTblRef _ => true
  | .setOperation op all l r colTypes _ _ =>
    decide (op = top_op) && (decide (all = top_all) || all) &&
      decide (colTypes = top_colTypes) &&
      union_foldable top_op top_all top_colTypes l &&
      union_foldable top_op top_all top_colTypes r

/-- The shape of the plan built for a UNION node: one Append over the
separately planned children, optionally under one duplicate-elimination
step (hashed Agg, or Sort plus Unique — either way a single dedup step). -/
inductive PathShape where
  | append (children : List SetOpNode)
  | dedup (inner : PathShape)
  deriving Repr, DecidableEq

/-- `make_union_unique` (lines 959-1026) reduced to what it decides: stamp
the grouping clauses onto the tlist, fail if there is nothing to group on,
run `choose_hashed_setop` (with `dNumGroups = dNumOutputRows = path->rows`),
and wrap the path in one dedup step of the chosen kind. -/
def make_union_unique_shape (groupClauses : List SortGroupClause)
    (tlist : List TargetEntry) (path : PathShape)
    (can_sort can_hash enable_hashagg : Bool) (path_width : Nat)
    (path_rows : ℚ) (work_mem : Nat) (hashed_p sorted_p : Cost)
    (tuple_fraction : ℚ) : Except String PathShape :=
  match generate_setop_grouplist groupClauses tlist with
  | none => .error "Assert failed in generate_setop_grouplist"
  | some groupList =>
    -- punt if nothing to group on
    if groupList.isEmpty then .error "UNION over no columns is not supported"
    else
      match choose_hashed_setop can_sort can_hash enable_hashagg path_width
          path_rows path_rows work_mem hashed_p sorted_p tuple_fraction
          "UNION" with
      | .error e => .error e
      | .ok _use_hash => .ok (.dedup path)

/-- `generate_union_path` (lines 556-664) reduced to the plan shape it
builds: flatten identically-propertied UNION children into one pathlist,
build the Append tlist, and for UNION DISTINCT add the dedup step via
`make_union_unique`.  The per-child planning results (their tlists) and the
chooser's external inputs are parameters. -/
def generate_union_path_shape (op : SetOpType) (all : Bool)
    (larg rarg : SetOpNode) (colTypes colCollations : List Nat)
    (groupClauses : List SortGroupClause)
    (refnames_tlist : List TargetEntry)
    (child_tlists : List (List TargetEntry))
    (can_sort can_hash enable_hashagg : Bool) (path_width : Nat)
    (path_rows : ℚ) (work_mem : Nat) (hashed_p sorted_p : Cost)
    (tuple_fraction : ℚ) : Except String PathShape :=
  let pathlist := recurse_union_children op all colTypes larg ++
    recurse_union_children op all colTypes rarg
  let tlist := generate_append_tlist colTypes colCollations false child_tlists
    refnames_tlist
  let path := PathShape.append pathlist
  -- For UNION ALL, we just need the Append path.  For UNION, add the
  -- duplicate-removal step.
  if all then .ok path
  else make_union_unique_shape groupClauses tlist path can_sort can_hash
    enable_hashagg path_width path_rows work_mem hashed_p sorted_p
    tuple_fraction

/-! ## The INTERSECT/EXCEPT planner (lines 669-887) -/

/-- Which original child of the combine occupies a position of the Append. -/
inductive ChildTag where
  | left | right
  deriving Repr, DecidableEq

/-- Lines 717-734: for EXCEPT the left input goes first; for INTERSECT the
input with the fewer estimated groups goes first (left on a tie).  Returns
(first child, second child, firstFlag). -/
def nonunion_child_order (op : SetOpType) (dLeftGroups dRightGroups : ℚ) :
    ChildTag × ChildTag × Nat :=
  if op = .EXCEPT ∨ dLeftGroups ≤ dRightGroups then (.left, .right, 0)
  else (.right, .left, 1)

/-- What `generate_nonunion_path` decides, kept alongside the tlist it
builds: child order, grouping clauses, estimates, hash/sort choice, and the
parameters of the final SetOp node. -/
structure NonunionPath where
  firstChild : ChildTag
  secondChild : ChildTag
  firstFlag : Nat
  use_hash : Bool
  cmd : SetOpCmd
  groupList : List SortGroupClause
  dNumGroups : ℚ
  dNumOutputRows : ℚ
  flagColIdx : Nat
  setop_firstFlag : Int
  tlist : List TargetEntry
  deriving Repr

/-- `generate_nonunion_path` (lines 669-887) reduced to its decisions.  The
children's planning results enter as their row counts, group estimates and
tlists; the chooser's external inputs are parameters.  Errors: the
assertion checks of `generate_setop_grouplist`, the zero-column punt, the
chooser's unsupported-feature report, and the unrecognized-set-op defect. -/
def generate_nonunion_path_shape (op : SetOpType) (all : Bool)
    (colTypes colCollations : List Nat) (groupClauses : List SortGroupClause)
    (refnames_tlist : List TargetEntry)
    (lpath_rows rpath_rows dLeftGroups dRightGroups : ℚ)
    (lpath_tlist rpath_tlist : List TargetEntry)
    (can_sort can_hash enable_hashagg : Bool) (path_width : Nat)
    (work_mem : Nat) (hashed_p sorted_p : Cost) (tuple_fraction : ℚ) :
    Except String NonunionPath :=
  let ord := nonunion_child_order op dLeftGroups dRightGroups
  let first := ord.1
  let second := ord.2.1
  let firstFlag := ord.2.2
  let tlist_list :=
    if ord.1 = ChildTag.left then [lpath_tlist, rpath_tlist]
    else [rpath_tlist, lpath_tlist]
  -- Generate tlist for the Append node (with the flag column shown as a
  -- variable, not a constant).
  let tlist := generate_append_tlist colTypes colCollations true tlist_list
    refnames_tlist
  -- Identify the grouping semantics
  match generate_setop_grouplist groupClauses tlist with
  | none => .error "Assert failed in generate_setop_grouplist"
  | some groupList =>
      -- punt if nothing to group on
      if groupList.isEmpty then
        .error ((if op = .INTERSECT then "INTERSECT" else "EXCEPT") ++
          " over no columns is not supported")
      else
        -- Estimate the number of hashtable groups and output rows: the
        -- left input's groups for EXCEPT, the smaller input for INTERSECT.
        let dNumGroups :=
          if op = .EXCEPT then dLeftGroups else min dLeftGroups dRightGroups
        let dNumOutputRows :=
          if op = .EXCEPT then (if all then lpath_rows else dNumGroups)
          else (if all then min lpath_rows rpath_rows else dNumGroups)
        match choose_hashed_setop can_sort can_hash enable_hashagg path_width
            dNumGroups dNumOutputRows work_mem hashed_p sorted_p
            tuple_fraction
            (if op = .INTERSECT then "INTERSECT" else "EXCEPT") with
        | .error e => .error e
        | .ok use_hash =>
          match op with
          | .UNION => .error "unrecognized set op"
          | .INTERSECT =>
            .ok { firstChild := first, secondChild := second,
                  firstFlag := firstFlag, use_hash := use_hash,
                  cmd := if all then .INTERSECT_ALL else .INTERSECT,
                  groupList := groupList, dNumGroups := dNumGroups,
                  dNumOutputRows := dNumOutputRows,
                  flagColIdx := colTypes.length + 1,
                  setop_firstFlag :=
                    if use_hash then (firstFlag : Int) else -1,
                  tlist := tlist }
          | .EXCEPT =>
            .ok { firstChild := first, secondChild := second,
                  firstFlag := firstFlag, use_hash := use_hash,
                  cmd := if all then .EXCEPT_ALL else .EXCEPT,
                  groupList := groupList, dNumGroups := dNumGroups,
                  dNumOutputRows := dNumOutputRows,
                  flagColIdx := colTypes.length + 1,
                  setop_firstFlag :=
                    if use_hash then (firstFlag : Int) else -1,
                  tlist := tlist }

/-! ## Inheritance expansion (prepunion.c lines 1465-1907) -/

/-- One attribute of a relation's tuple descriptor (the fields
`make_inh_translation_list` reads). -/
structure PgAttribute where
  attname : String
  atttypid : Nat
  atttypmod : Int
  attcollation : Nat
  attisdropped : Bool
  deriving Repr, DecidableEq

/-- The loop of `make_inh_translation_list` (lines 1772-1851) with the
running `old_attno` explicit.  A dropped parent column yields an empty slot;
for `oldrelation == newrelation` no search is needed; otherwise the match is
positional first, then by name, and a missing column or a type/typmod/
collation mismatch is a fatal schema error. -/
def make_inh_translation_list_loop (new_attrs : List PgAttribute)
    (newvarno : Nat) (same_relation : Bool) (newrelname : String) :
    Nat → List PgAttribute → Except String (List (Option Var))
  | _, [] => .ok []
  | old_attno, att :: rest =>
    if att.attisdropped then
      -- Just put NULL into this list entry
      match make_inh_translation_list_loop new_attrs newvarno same_relation
          newrelname (old_attno + 1) rest with
      | .error e => .error e
      | .ok vs => .ok (none :: vs)
    else if same_relation then
      -- parent table of the set: no need to search for matches
      match make_inh_translation_list_loop new_attrs newvarno same_relation
          newrelname (old_attno + 1) rest with
      | .error e => .error e
      | .ok vs =>
        .ok (some (makeVar newvarno ((old_attno + 1 : Nat) : Int) att.atttypid
          att.atttypmod att.attcollation 0) :: vs)
    else
      -- try the same column number first, then grovel through all columns
      match
        (match new_attrs.get? old_attno with
         | some natt =>
           if !natt.attisdropped && natt.attname == att.attname then
             some (old_attno, natt)
           else none
         | none => none).orElse
          (fun _ => new_attrs.enum.find? fun p =>
            !p.2.attisdropped && p.2.attname == att.attname) with
      | none =>
        .error ("could not find inherited attribute " ++ att.attname ++
          " of relation " ++ newrelname)
      | some (new_attno, natt) =>
        -- found it, check type and collation match
        if att.atttypid ≠ natt.atttypid ∨ att.atttypmod ≠ natt.atttypmod then
          .error ("attribute " ++ att.attname ++ " of relation " ++
            newrelname ++ " does not match parent's type")
        else if att.attcollation ≠ natt.attcollation then
          .error ("attribute " ++ att.attname ++ " of relation " ++
            newrelname ++ " does not match parent's collation")
        else
          match make_inh_translation_list_loop new_attrs newvarno same_relation
              newrelname (old_attno + 1) rest with
          | .error e => .error e
          | .ok vs =>
            .ok (some (makeVar newvarno ((new_attno + 1 : Nat) : Int)
              att.atttypid att.atttypmod att.attcollation 0) :: vs)

/-- `make_inh_translation_list` (lines 1760-1854): one translated-Var slot
per parent column, numbered against `newvarno`. -/
def make_inh_translation_list (old_attrs new_attrs : List PgAttribute)
    (same_relation : Bool) (newvarno : Nat) (newrelname : String) :
    Except String (List (Option Var)) :=
  make_inh_translation_list_loop new_attrs newvarno same_relation newrelname
    0 old_attrs

/-- The `for (attno = FirstLowInvalidHeapAttributeNumber + 1; attno < 0;
attno++)` system-attribute loop of `translate_col_privs` (lines 1877-1883),
with an explicit fuel count (`-flihan - 1` iterations starting at
`flihan + 1`): system attributes keep the same numbers in all tables. -/
def translate_col_privs_sys (flihan : Int) (parent_privs : Finset Int) :
    Nat → Int → Finset Int → Finset Int
  | 0, _, acc => acc
  | n + 1, attno, acc =>
    translate_col_privs_sys flihan parent_privs n (attno + 1)
      (if (attno - flihan) ∈ parent_privs then insert (attno - flihan) acc
       else acc)

/-- The user-attribute loop of `translate_col_privs` (lines 1890-1904):
`attno` counts parent columns from 1, dropped slots are skipped, and a
parent bit (or the parent whole-row bit) sets the bit of the translated
column number. -/
def translate_col_privs_user (flihan : Int) (parent_privs : Finset Int)
    (whole_row : Bool) :
    Int → List (Option Var) → Finset Int → Finset Int
  | _, [], acc => acc
  | attno, slot :: rest, acc =>
    match slot with
    | none =>
      translate_col_privs_user flihan parent_privs whole_row (attno + 1) rest
        acc
    | some var =>
      if whole_row = true ∨ ((attno + 1) - flihan) ∈ parent_privs then
        translate_col_privs_user flihan parent_privs whole_row (attno + 1)
          rest (insert (var.varattno - flihan) acc)
      else
        translate_col_privs_user flihan parent_privs whole_row (attno + 1)
          rest acc

/-- `translate_col_privs` (lines 1867-1907): remap a per-column privilege
bitmapset from the parent's attribute numbering to the child's.  A bitmapset
member for attribute `a` is stored at index `a - flihan`, where `flihan`
is the build constant `FirstLowInvalidHeapAttributeNumber` (from a header
outside this source; it enters as a parameter, always negative).  A parent
whole-row bit (attribute 0) fans out to the per-column bits of all live
translated columns, never to the child's own whole-row bit. -/
def translate_col_privs (flihan : Int) (parent_privs : Finset Int)
    (translated_vars : List (Option Var)) : Finset Int :=
  let child_privs := translate_col_privs_sys flihan parent_privs
    (-flihan - 1).toNat (flihan + 1) (∅ : Finset Int)
  let whole_row := decide ((0 - flihan) ∈ parent_privs)
  translate_col_privs_user flihan parent_privs whole_row 0 translated_vars
    child_privs

/-- Range-table entry kinds that reach `expand_inherited_rtentry`. -/
inductive RTEKind where
  | relation | subquery
  deriving Repr, DecidableEq

/-- Range-table entry (the fields `expand_inherited_rtentry` reads or
writes; `requiredPerms` is zeroed on children and carried nowhere else
here, so it is omitted). -/
structure RangeTblEntry where
  rtekind : RTEKind
  relid : Nat
  inh : Bool
  selectedCols : Finset Int
  insertedCols : Finset Int
  updatedCols : Finset Int
  deriving DecidableEq

/-- `AppendRelInfo`: one parent/child translation record. -/
structure AppendRelInfo where
  parent_relid : Nat
  child_relid : Nat
  parent_reltype : Nat
  child_reltype : Nat
  translated_vars : List (Option Var)
  parent_reloid : Nat
  deriving Repr

/-- The catalog/schema collaborator (§6), as read-only functions:
`has_subclass`, `find_all_inheritors` (parent first), the temp-table check
`RELATION_IS_OTHER_TEMP`, partitioned-ness, leaf-partition-ness, tuple
descriptors, composite type ids and names. -/
structure Catalog where
  has_subclass : Nat → Bool
  find_all_inheritors : Nat → List Nat
  is_other_temp : Nat → Bool
  rel_is_partitioned : Nat → Bool
  rel_is_leaf_partition : Nat → Bool
  rel_attrs : Nat → List PgAttribute
  rel_reltype : Nat → Nat
  rel_name : Nat → String

/-- The filter applied to each inheritance-set member inside the expansion
loop: skip transient relations of other sessions (the parent itself is
never temp-checked), and under a partitioned parent keep only leaves. -/
def survives_filter (cat : Catalog) (parentOID : Nat)
    (parent_is_partitioned : Bool) (childOID : Nat) : Bool :=
  !(decide (childOID ≠ parentOID) && cat.is_other_temp childOID) &&
  !(parent_is_partitioned && !cat.rel_is_leaf_partition childOID)

/-- The per-member body of the expansion loop (lines 1606-1716, without the
row-mark propagation of lines 1690-1711, which touches neither the
AppendRelInfos nor the `inh` flag): apply the two skip filters, build the
child RTE and AppendRelInfo, and translate the privilege bitmapsets for a
real child.  `childRTindex` is the rangetable length after appending the
child RTE. -/
def expand_one_child (cat : Catalog) (flihan : Int) (rte : RangeTblEntry)
    (rti : Nat) (parentOID : Nat) (parent_is_partitioned : Bool)
    (rtable_len : Nat)
    (acc : List AppendRelInfo × List RangeTblEntry) (childOID : Nat) :
    Except String (List AppendRelInfo × List RangeTblEntry) :=
  -- temp tables of other backends are silently ignored
  if decide (childOID ≠ parentOID) && cat.is_other_temp childOID then .ok acc
  -- show root and leaf partitions
  else if parent_is_partitioned && !cat.rel_is_leaf_partition childOID then
    .ok acc
  else
    match make_inh_translation_list (cat.rel_attrs parentOID)
        (cat.rel_attrs childOID) (childOID = parentOID)
        (rtable_len + acc.2.length + 1) (cat.rel_name childOID) with
    | .error e => .error e
    | .ok tvars =>
      let childRTindex := rtable_len + acc.2.length + 1
      let appinfo : AppendRelInfo :=
        { parent_relid := rti, child_relid := childRTindex,
          parent_reltype := cat.rel_reltype parentOID,
          child_reltype := cat.rel_reltype childOID,
          translated_vars := tvars, parent_reloid := parentOID }
      -- copy the parent RTE, replacing relid and clearing inh; translate
      -- the column permission bitmaps unless this is the parent itself
      let childrte :=
        if childOID ≠ parentOID then
          { rte with
              relid := childOID
              inh := false
              selectedCols := translate_col_privs flihan rte.selectedCols tvars
              insertedCols := translate_col_privs flihan rte.insertedCols tvars
              updatedCols := translate_col_privs flihan rte.updatedCols tvars }
        else { rte with relid := childOID, inh := false }
      .ok (acc.1 ++ [appinfo], acc.2 ++ [childrte])

/-- The outcome of expanding one range-table entry: the final `inh` flag,
the AppendRelInfos added to `root->append_rel_list`, and the child RTEs
appended to the rangetable (kept even when expansion degenerates — the
duplicate parent RTE is harmless). -/
structure ExpandResult where
  inh : Bool
  appinfos : List AppendRelInfo
  child_rtes : List RangeTblEntry

/-- `expand_inherited_rtentry` (lines 1504-1751), with locking, relation
opening and the DynamicScanInfo bookkeeping (which touch no claim-relevant
state) left to the external collaborators.  Degenerate cases — `inh` not
set, a non-relation RTE, no subclass, fewer than two inheritance-set
members, or every member filtered out — clear `inh` (or leave it, for the
subquery case) and register nothing. -/
def expand_inherited_rtentry (cat : Catalog) (flihan : Int)
    (rte : RangeTblEntry) (rti : Nat) (rtable_len : Nat) :
    Except String ExpandResult :=
  -- does RT entry allow inheritance?
  if rte.inh = false then .ok ⟨rte.inh, [], []⟩
  -- ignore already-expanded UNION ALL nodes
  else if rte.rtekind ≠ .relation then .ok ⟨rte.inh, [], []⟩
  -- fast path for common case of childless table
  else if cat.has_subclass rte.relid = false then .ok ⟨false, [], []⟩
  -- check that there is at least one descendant, else treat as the
  -- no-child case (this could happen despite has_subclass, if the table
  -- once had a child but no longer does)
  else if (cat.find_all_inheritors rte.relid).length < 2 then .ok ⟨false, [], []⟩
  else
    -- scan the inheritance set and expand it (locks acquired externally)
    match (cat.find_all_inheritors rte.relid).foldlM
        (expand_one_child cat flihan rte rti rte.relid
          (cat.rel_is_partitioned rte.relid) rtable_len) ([], []) with
    | .error e => .error e
    | .ok (appinfos, rtes) =>
      -- if all the children were skipped, pretend it's a non-inheritance
      -- situation (the duplicate parent RTE is harmless)
      if appinfos.length < 1 then .ok ⟨false, [], rtes⟩
      else .ok ⟨true, appinfos, rtes⟩

/-- Context threaded through `adjust_appendrel_attrs_mutator`: the
translation record, the parent relation's name (fetched through the
catalog by the C error path) and the parent RTE's column names (fetched
through `rt_fetch` for the RowExpr case). -/
structure AdjustContext where
  appinfo : AppendRelInfo
  parent_relname : String
  parentColnames : List String

/-- `adjust_appendrel_attrs_mutator` (lines 1967-2243) restricted to
expression nodes (the RestrictInfo/Query bookkeeping translates relid sets
and is outside the expression claims).  The function is pure: it returns a
fresh tree and cannot mutate its argument, which is how the C achieves the
same effect by `copyObject`-ing every node it touches.  A column reference
to the parent at the matching nesting level is replaced by the recorded
translated expression; an out-of-range column index or an empty
(dropped-column) slot is the fatal schema error of lines 1988-1995; a
whole-row reference becomes a ConvertRowtypeExpr over the child (or the
child Var itself when the composite types coincide), or a RowExpr built
from all translated columns when no composite type exists; system
attributes (negative numbers) just get the new varno. -/
def adjust_appendrel_attrs_mutator (ctx : AdjustContext)
    (sublevels_up : Nat) : Expr → Except String Expr
  | .var v =>
    if v.varlevelsup = sublevels_up ∧ v.varno = ctx.appinfo.parent_relid then
      let var := { v with
        varno := ctx.appinfo.child_relid
        varnoold := ctx.appinfo.child_relid }
      if 0 < v.varattno then
        if v.varattno > (ctx.appinfo.translated_vars.length : Int) then
          .error ("attribute " ++ toString v.varattno ++ " of relation " ++
            ctx.parent_relname ++ " does not exist")
        else
          match ctx.appinfo.translated_vars.get? (v.varattno.toNat - 1) with
          | none =>
            .error ("attribute " ++ toString v.varattno ++ " of relation " ++
              ctx.parent_relname ++ " does not exist")
          | some none =>
            -- copyObject(NULL) = NULL: a dropped parent column was referenced
            .error ("attribute " ++ toString v.varattno ++ " of relation " ++
              ctx.parent_relname ++ " does not exist")
          | some (some tv) =>
            .ok (.var { tv with varlevelsup := tv.varlevelsup + sublevels_up })
      else if v.varattno = 0 then
        -- whole-row Var
        if ctx.appinfo.child_reltype ≠ 0 then
          if ctx.appinfo.parent_reltype ≠ ctx.appinfo.child_reltype then
            .ok (.convertRowtype
              (.var { var with vartype := ctx.appinfo.child_reltype })
              ctx.appinfo.parent_reltype)
          else .ok (.var var)
        else
          -- build a RowExpr containing the translated variables (no dummy
          -- NULLs can occur here; one would be a NULL dereference in the C)
          match (ctx.appinfo.translated_vars.mapM (fun s =>
              s.map (fun f => Expr.var
                { f with varlevelsup := f.varlevelsup + sublevels_up }))) with
          | none => .error "dropped column in whole-row translation"
          | some fields =>
            .ok (.rowExpr fields v.vartype ctx.parentColnames)
      else
        -- system attributes need no other translation
        .ok (.var var)
    else .ok (.var v)
  | .const c => .ok (.const c)
  | .relabel arg t m c =>
    match adjust_appendrel_attrs_mutator ctx sublevels_up arg with
    | .error e => .error e
    | .ok arg2 => .ok (.relabel arg2 t m c)
  | .coerce arg t =>
    match adjust_appendrel_attrs_mutator ctx sublevels_up arg with
    | .error e => .error e
    | .ok arg2 => .ok (.coerce arg2 t)
  | .convertRowtype arg t =>
    match adjust_appendrel_attrs_mutator ctx sublevels_up arg with
    | .error e => .error e
    | .ok arg2 => .ok (.convertRowtype arg2 t)
  | .rowExpr args t ns =>
    match args.attach.mapM (fun a =>
        adjust_appendrel_attrs_mutator ctx sublevels_up a.1) with
    | .error e => .error e
    | .ok args2 => .ok (.rowExpr args2 t ns)
termination_by e => sizeOf e
decreasing_by
  all_goals simp_wf
  all_goals first
    | omega
    | (have h9 := List.sizeOf_lt_of_mem a.2; omega)

/-- A concrete catalog whose inheritance lookup for any relation returns
`[1, 2, 3]` with both real children (2 and 3) being other sessions' temp
tables, so only the parent itself survives the loop filter. -/
def cexCatalog : Catalog :=
  { has_subclass := fun _ => true
    find_all_inheritors := fun _ => [1, 2, 3]
    is_other_temp := fun c => decide (c ≠ 1)
    rel_is_partitioned := fun _ => false
    rel_is_leaf_partition := fun _ => true
    rel_attrs := fun _ => [⟨"a", 23, -1, 0, false⟩]
    rel_reltype := fun _ => 100
    rel_name := fun _ => "t" }

/-- A concrete catalog whose inheritance lookup returns `[1, 2, 3]` with
exactly one member (3) failing the temp-table filter. -/
def witCatalog : Catalog :=
  { cexCatalog with is_other_temp := fun c => decide (c = 3) }

/-- The parent RTE used with the concrete catalogs: an inheritance-flagged
plain relation with empty privilege bitmapsets. -/
def cexRte : RangeTblEntry := ⟨.relation, 1, true, ∅, ∅, ∅⟩

/-- A concrete translation list for evaluating `translate_col_privs`:
columns 1 and 3 live (mapping to child columns 1 and 5), column 2 dropped. -/
def samplePrivVars : List (Option Var) :=
  [some ⟨2, 1, 23, -1, 0, 0, 2⟩, none, some ⟨2, 5, 23, -1, 0, 0, 2⟩]

/-- A concrete parent privilege bitmapset for `flihan = -8`: the bit of
system attribute -7 (index 1) and the whole-row bit (index 8). -/
def samplePrivs : Finset Int := {1, 8}

/-! ## The sortgroupref invariant of the two tlist builders -/

/-- Indexing into a list extended by one final element. -/
theorem get_append_single {α : Type} (l : List α) (a : α) (i : Nat)
    (h : i < (l ++ [a]).length) :
    (l ++ [a]).get ⟨i, h⟩ =
      if hlt : i < l.length then l.get ⟨i, hlt⟩ else a := by
  split
  · rename_i hlt
    exact List.get_append i hlt
  · rename_i hge
    have hi : i = l.length := by
      simp only [List.length_append, List.length_singleton] at h
      omega
    subst hi
    simp

/-- Entries produced by the `generate_setop_tlist` loop started at `resno = r`:
the `i`-th one is non-resjunk with `resno` and `ressortgroupref` both `r + i`. -/
theorem generate_setop_tlist_loop_spec (varno : Nat) (hc : Bool) :
    ∀ (cts ccs : List Nat) (its rts : List TargetEntry) (r : Nat)
      (l : List TargetEntry),
      generate_setop_tlist_loop varno hc r cts ccs its rts = some l →
      ∀ i (h : i < l.length),
        (l.get ⟨i, h⟩).resno = r + i ∧
        (l.get ⟨i, h⟩).ressortgroupref = r + i ∧
        (l.get ⟨i, h⟩).resjunk = false := by
  intro cts
  induction cts with
  | nil =>
    intro ccs its rts r l hl
    simp only [generate_setop_tlist_loop, Option.some.injEq] at hl
    subst hl
    intro i h
    simp at h
  | cons ct cts ih =>
    intro ccs its rts r l hl
    match ccs, its, rts with
    | [], _, _ =>
      simp only [generate_setop_tlist_loop, Option.some.injEq] at hl
      subst hl; intro i h; simp at h
    | _ :: _, [], _ =>
      simp only [generate_setop_tlist_loop, Option.some.injEq] at hl
      subst hl; intro i h; simp at h
    | _ :: _, _ :: _, [] =>
      simp only [generate_setop_tlist_loop] at hl
      exact absurd hl (by simp)
    | cc :: ccs, it :: its, rt :: rts =>
      rw [generate_setop_tlist_loop] at hl
      cases hrec : generate_setop_tlist_loop varno hc (r + 1) cts ccs its rts with
      | none => rw [hrec] at hl; exact absurd hl (by simp)
      | some rest =>
        rw [hrec] at hl
        simp only [Option.some.injEq] at hl
        subst hl
        intro i h
        match i with
        | 0 => exact ⟨rfl, rfl, rfl⟩
        | i + 1 =>
          have h2 : i < rest.length := by
            simp only [List.length_cons] at h
            omega
          have := ih ccs its rts (r + 1) rest hrec i h2
          simpa [Nat.add_assoc, Nat.add_comm 1 i] using this

/-- Entries produced by the `generate_append_tlist` build loop started at
`resno = r`: the `i`-th one is non-resjunk with `resno` and
`ressortgroupref` both `r + i`. -/
theorem generate_append_tlist_loop_spec (colTypmods : List Int) :
    ∀ (cts ccs : List Nat) (rts : List TargetEntry) (r ci : Nat)
      (i : Nat) (h : i < (generate_append_tlist_loop colTypmods r ci cts ccs rts).length),
      ((generate_append_tlist_loop colTypmods r ci cts ccs rts).get ⟨i, h⟩).resno = r + i ∧
      ((generate_append_tlist_loop colTypmods r ci cts ccs rts).get ⟨i, h⟩).ressortgroupref = r + i ∧
      ((generate_append_tlist_loop colTypmods r ci cts ccs rts).get ⟨i, h⟩).resjunk = false := by
  intro cts
  induction cts with
  | nil =>
    intro ccs rts r ci i h
    simp [generate_append_tlist_loop] at h
  | cons ct cts ih =>
    intro ccs rts r ci i h
    match ccs, rts with
    | [], _ => simp [generate_append_tlist_loop] at h
    | _ :: _, [] => simp [generate_append_tlist_loop] at h
    | cc :: ccs, rt :: rts =>
      match i with
      | 0 => exact ⟨rfl, rfl, rfl⟩
      | i + 1 =>
        have h2 : i < (generate_append_tlist_loop colTypmods (r + 1) (ci + 1) cts ccs rts).length := by
          rw [generate_append_tlist_loop] at h
          simp only [List.length_cons] at h
          omega
        have := ih ccs rts (r + 1) (ci + 1) i h2
        simpa [generate_append_tlist_loop, Nat.add_assoc, Nat.add_comm 1 i] using this

/-- Equation for `generate_setop_tlist` once its loop is known to succeed. -/
theorem generate_setop_tlist_eq_of_loop (colTypes colCollations : List Nat)
    (flag : Int) (varno : Nat) (hc : Bool)
    (input_tlist refnames_tlist : List TargetEntry) (tlist : List TargetEntry)
    (hloop : generate_setop_tlist_loop varno hc 1 colTypes colCollations
               input_tlist refnames_tlist = some tlist) :
    generate_setop_tlist colTypes colCollations flag varno hc input_tlist
        refnames_tlist =
      if flag ≥ 0 then
        some (tlist ++
          [makeTargetEntry (Expr.const ⟨INT4OID, -1, 0, flag, false⟩)
             (tlist.length + 1) "flag" true])
      else some tlist := by
  unfold generate_setop_tlist
  rw [hloop]

/-- C8: every output column list produced by `generate_setop_tlist` and by
`generate_append_tlist` satisfies the setop-tree tlist invariant: the entry
at 0-based position `i` has `resno = i + 1`, a non-resjunk entry carries
`ressortgroupref` equal to that ordinal position, and a resjunk (flag)
entry carries `ressortgroupref = 0`. -/
theorem tlist_builders_sortgroupref_invariant
    (colTypes colCollations : List Nat) (flag : Int) (varno : Nat)
    (hack_constants : Bool) (input_tlist refnames_tlist : List TargetEntry)
    (aflag : Bool) (input_tlists : List (List TargetEntry))
    (stlist : List TargetEntry)
    (hst : generate_setop_tlist colTypes colCollations flag varno hack_constants
             input_tlist refnames_tlist = some stlist) :
    (∀ i (h : i < stlist.length),
      (stlist.get ⟨i, h⟩).resno = i + 1 ∧
      ((stlist.get ⟨i, h⟩).resjunk = false →
        (stlist.get ⟨i, h⟩).ressortgroupref = i + 1) ∧
      ((stlist.get ⟨i, h⟩).resjunk = true →
        (stlist.get ⟨i, h⟩).ressortgroupref = 0)) ∧
    (∀ (atlist : List TargetEntry),
      atlist = generate_append_tlist colTypes colCollations aflag input_tlists
                 refnames_tlist →
      ∀ i (h : i < atlist.length),
        (atlist.get ⟨i, h⟩).resno = i + 1 ∧
        ((atlist.get ⟨i, h⟩).resjunk = false →
          (atlist.get ⟨i, h⟩).ressortgroupref = i + 1) ∧
        ((atlist.get ⟨i, h⟩).resjunk = true →
          (atlist.get ⟨i, h⟩).ressortgroupref = 0)) := by
  constructor
  · -- the set-operation tlist builder
    cases hloop : generate_setop_tlist_loop varno hack_constants 1 colTypes
        colCollations input_tlist refnames_tlist with
    | none =>
      unfold generate_setop_tlist at hst
      rw [hloop] at hst
      exact absurd hst (by simp)
    | some tlist =>
      rw [generate_setop_tlist_eq_of_loop colTypes colCollations flag varno
        hack_constants input_tlist refnames_tlist tlist hloop] at hst
      have hspec := generate_setop_tlist_loop_spec varno hack_constants colTypes
        colCollations input_tlist refnames_tlist 1 tlist hloop
      by_cases hf : flag ≥ 0
      · rw [if_pos hf] at hst
        simp only [Option.some.injEq] at hst
        subst hst
        intro i h
        rw [get_append_single]
        split
        · rename_i hlt
          have := hspec i hlt
          refine ⟨?_, fun _ => ?_, fun hj => ?_⟩
          · omega
          · omega
          · rw [this.2.2] at hj; exact absurd hj (by simp)
        · rename_i hge
          have hi : i = tlist.length := by
            simp only [List.length_append, List.length_singleton] at h
            omega
          subst hi
          exact ⟨by simp [makeTargetEntry], fun hj => by
            simp [makeTargetEntry] at hj, fun _ => rfl⟩
      · rw [if_neg hf] at hst
        simp only [Option.some.injEq] at hst
        subst hst
        intro i h
        have := hspec i h
        refine ⟨by omega, fun _ => by omega, fun hj => ?_⟩
        rw [this.2.2] at hj; exact absurd hj (by simp)
  · -- the append tlist builder
    intro atlist hat
    subst hat
    have hspec := generate_append_tlist_loop_spec
      (compute_append_typmods colTypes input_tlists) colTypes colCollations
      refnames_tlist 1 0
    cases aflag with
    | false =>
      have hdef : generate_append_tlist colTypes colCollations false input_tlists
          refnames_tlist = generate_append_tlist_loop
            (compute_append_typmods colTypes input_tlists) 1 0 colTypes
            colCollations refnames_tlist := rfl
      rw [hdef]
      intro i h
      have := hspec i h
      refine ⟨by omega, fun _ => by omega, fun hj => ?_⟩
      rw [this.2.2] at hj; exact absurd hj (by simp)
    | true =>
      have hdef : generate_append_tlist colTypes colCollations true input_tlists
          refnames_tlist = generate_append_tlist_loop
            (compute_append_typmods colTypes input_tlists) 1 0 colTypes
            colCollations refnames_tlist ++
          [makeTargetEntry
             (Expr.var (makeVar OUTER_VAR
               ((((generate_append_tlist_loop
                    (compute_append_typmods colTypes input_tlists) 1 0 colTypes
                    colCollations refnames_tlist).length + 1 : Nat) : Int))
               INT4OID (-1) 0 0))
             ((generate_append_tlist_loop
                 (compute_append_typmods colTypes input_tlists) 1 0 colTypes
                 colCollations refnames_tlist).length + 1) "flag" true] := rfl
      rw [hdef]
      intro i h
      rw [get_append_single]
      split
      · rename_i hlt
        have := hspec i hlt
        refine ⟨by omega, fun _ => by omega, fun hj => ?_⟩
        rw [this.2.2] at hj; exact absurd hj (by simp)
      · rename_i hge
        have hi : i = (generate_append_tlist_loop
            (compute_append_typmods colTypes input_tlists) 1 0 colTypes
            colCollations refnames_tlist).length := by
          simp only [List.length_append, List.length_singleton] at h
          omega
        subst hi
        exact ⟨by simp [makeTargetEntry], fun hj => by
          simp [makeTargetEntry] at hj, fun _ => rfl⟩

/-- Witness for C8 at a concrete input: one real column plus a flag column
for the setop builder (whose output is `sampleSetopTlist`), and one subplan
tlist for the append builder. -/
theorem tlist_builders_sortgroupref_invariant_witness :
    (∀ i (h : i < sampleSetopTlist.length),
      (sampleSetopTlist.get ⟨i, h⟩).resno = i + 1 ∧
      ((sampleSetopTlist.get ⟨i, h⟩).resjunk = false →
        (sampleSetopTlist.get ⟨i, h⟩).ressortgroupref = i + 1) ∧
      ((sampleSetopTlist.get ⟨i, h⟩).resjunk = true →
        (sampleSetopTlist.get ⟨i, h⟩).ressortgroupref = 0)) ∧
    (∀ (atlist : List TargetEntry),
      atlist = generate_append_tlist [23] [0] true [[sampleInputTle]]
                 [sampleRefTle] →
      ∀ i (h : i < atlist.length),
        (atlist.get ⟨i, h⟩).resno = i + 1 ∧
        ((atlist.get ⟨i, h⟩).resjunk = false →
          (atlist.get ⟨i, h⟩).ressortgroupref = i + 1) ∧
        ((atlist.get ⟨i, h⟩).resjunk = true →
          (atlist.get ⟨i, h⟩).ressortgroupref = 0)) :=
  tlist_builders_sortgroupref_invariant [23] [0] 0 1 false
    [sampleInputTle] [sampleRefTle] true [[sampleInputTle]]
    sampleSetopTlist rfl

/-! ## Theorems about choose_hashed_setop -/

/-- C1: whenever the grouping operators support both hashing and sorting and
the per-entry hash-table footprint (`MAXALIGN width + MAXALIGN
SizeofMinimalTupleHeader`) multiplied by the estimated distinct-group count
exceeds `work_mem` (in kilobytes), `choose_hashed_setop` returns the sorting
strategy (`false`), for every outcome of the cost comparison (the cost paths
and tuple fraction are universally quantified) and every `enable_hashagg`
setting. -/
theorem choose_hashed_setop_memory_ceiling_forces_sort
    (enable_hashagg : Bool) (input_width : Nat) (dNumGroups dNumOutputRows : ℚ)
    (work_mem : Nat) (hashed_p sorted_p : Cost) (root_tuple_fraction : ℚ)
    (construct : String)
    (hmem : ((MAXALIGN input_width + MAXALIGN SizeofMinimalTupleHeader : Nat) : ℚ)
              * dNumGroups > (work_mem : ℚ) * 1024) :
    choose_hashed_setop true true enable_hashagg input_width dNumGroups
      dNumOutputRows work_mem hashed_p sorted_p root_tuple_fraction construct
      = .ok false := by
  have hmem2 := hmem
  push_cast at hmem2
  cases enable_hashagg <;> simp [choose_hashed_setop, hmem2]

/-- Witness for C1: a concrete input where the hashed plan is strictly
cheaper than the sorted plan, yet the memory ceiling forces sorting. -/
theorem choose_hashed_setop_memory_ceiling_forces_sort_witness :
    choose_hashed_setop true true true 8 1000000 1000000 1
      ⟨0, 0⟩ ⟨5, 5⟩ 0 "UNION" = .ok false :=
  choose_hashed_setop_memory_ceiling_forces_sort true 8 1000000 1000000 1
    ⟨0, 0⟩ ⟨5, 5⟩ 0 "UNION"
    (by norm_num [MAXALIGN, SizeofMinimalTupleHeader])

/-- C10: when both strategies are supported and `enable_hashagg` is off,
`choose_hashed_setop` returns the sorting strategy for every width, group
estimate, memory ceiling, cost outcome and tuple fraction — i.e. before the
memory-ceiling test and the cost comparison can have any influence. -/
theorem choose_hashed_setop_hashagg_off_forces_sort
    (input_width : Nat) (dNumGroups dNumOutputRows : ℚ) (work_mem : Nat)
    (hashed_p sorted_p : Cost) (root_tuple_fraction : ℚ) (construct : String) :
    choose_hashed_setop true true false input_width dNumGroups dNumOutputRows
      work_mem hashed_p sorted_p root_tuple_fraction construct = .ok false := by
  simp [choose_hashed_setop]

/-- The spec-modelled comparator is negative exactly when the first path's
fraction-adjusted cost is strictly lower. -/
theorem compare_fractional_path_costs_neg (p1 p2 : Cost) (f : ℚ) :
    compare_fractional_path_costs p1 p2 f < 0 ↔
      fractional_cost p1 f < fractional_cost p2 f := by
  unfold compare_fractional_path_costs
  split
  · simp only [iff_true, *]
    norm_num
  · split <;> simp_all

/-- The spec-modelled comparator reports a tie as 0. -/
theorem compare_fractional_path_costs_eq_zero (p1 p2 : Cost) (f : ℚ)
    (h : fractional_cost p1 f = fractional_cost p2 f) :
    compare_fractional_path_costs p1 p2 f = 0 := by
  simp [compare_fractional_path_costs, h]

/-- C5: with both strategies supported and the memory ceiling not exceeded,
`choose_hashed_setop` (a) returns hashing only if the hashed path's
fraction-adjusted cost is strictly lower than the sorted path's, and
(b) returns sorting whenever the adjusted costs are equal.  `tf` is the
tuple fraction after the absolute-LIMIT-to-fraction conversion the function
performs. -/
theorem choose_hashed_setop_cost_decision
    (enable_hashagg : Bool) (input_width : Nat) (dNumGroups dNumOutputRows : ℚ)
    (work_mem : Nat) (hashed_p sorted_p : Cost) (root_tuple_fraction : ℚ)
    (construct : String) (tf : ℚ)
    (htf : tf = if root_tuple_fraction ≥ 1 then root_tuple_fraction / dNumOutputRows
                else root_tuple_fraction)
    (hmem : ¬ (((MAXALIGN input_width + MAXALIGN SizeofMinimalTupleHeader : Nat) : ℚ)
                 * dNumGroups > (work_mem : ℚ) * 1024)) :
    (choose_hashed_setop true true enable_hashagg input_width dNumGroups
        dNumOutputRows work_mem hashed_p sorted_p root_tuple_fraction construct
        = .ok true →
      fractional_cost hashed_p tf < fractional_cost sorted_p tf) ∧
    (fractional_cost hashed_p tf = fractional_cost sorted_p tf →
      choose_hashed_setop true true enable_hashagg input_width dNumGroups
        dNumOutputRows work_mem hashed_p sorted_p root_tuple_fraction construct
        = .ok false) := by
  subst htf
  cases enable_hashagg with
  | false => simp [choose_hashed_setop]
  | true =>
    have hmem2 := hmem
    push_cast at hmem2
    have hval : choose_hashed_setop true true true input_width dNumGroups
        dNumOutputRows work_mem hashed_p sorted_p root_tuple_fraction construct =
        if compare_fractional_path_costs hashed_p sorted_p
            (if root_tuple_fraction ≥ 1 then root_tuple_fraction / dNumOutputRows
             else root_tuple_fraction) < 0
        then .ok true else .ok false := by
      simp [choose_hashed_setop, hmem2]
    rw [hval]
    constructor
    · intro hok
      rw [← compare_fractional_path_costs_neg]
      by_contra hnot
      rw [if_neg hnot] at hok
      exact absurd hok (by simp)
    · intro heq
      rw [compare_fractional_path_costs_eq_zero _ _ _ heq]
      norm_num

/-- Witness for C5: equal adjusted costs at a concrete input yield the
sorting strategy. -/
theorem choose_hashed_setop_cost_decision_witness :
    choose_hashed_setop true true true 8 1 1 1000 ⟨1, 1⟩ ⟨1, 1⟩ 0 "UNION"
      = .ok false :=
  (choose_hashed_setop_cost_decision true 8 1 1 1000 ⟨1, 1⟩ ⟨1, 1⟩ 0 "UNION" 0
    (by norm_num)
    (by norm_num [MAXALIGN, SizeofMinimalTupleHeader])).2 rfl

/-! ## Flattening of nested UNIONs (C3) -/

/-- On a fully foldable subtree, `recurse_union_children` returns exactly one
planned unit per original leaf. -/
theorem recurse_union_children_foldable_length (top_op : SetOpType)
    (top_all : Bool) (top_colTypes : List Nat) :
    ∀ n : SetOpNode, union_foldable top_op top_all top_colTypes n = true →
      (recurse_union_children top_op top_all top_colTypes n).length = leafCount n := by
  intro n
  induction n with
  | rangeTblRef i => intro _; rfl
  | setOperation op all l r ct cc gc ihl ihr =>
    intro hf
    simp only [union_foldable, Bool.and_eq_true, decide_eq_true_eq,
      Bool.or_eq_true] at hf
    obtain ⟨⟨⟨⟨hop, hall⟩, hct⟩, hfl⟩, hfr⟩ := hf
    rw [recurse_union_children, if_pos ⟨hop, hall, hct⟩]
    simp [List.length_append, ihl hfl, ihr hfr, leafCount]

/-- C3 (amended): for a UNION combine whose two subtrees consist entirely of
nested UNION combines with identical declared column types and an ALL flag
equal to the top's or ALL (the condition `recurse_union_children` folds on),
the union planner produces one Append whose child-path list length equals
the total number of original leaves, plus exactly one dedup step in the
DISTINCT case. -/
theorem union_flattening_leaf_count
    (all : Bool) (larg rarg : SetOpNode) (colTypes colCollations : List Nat)
    (groupClauses : List SortGroupClause) (refnames_tlist : List TargetEntry)
    (child_tlists : List (List TargetEntry))
    (can_sort can_hash enable_hashagg : Bool) (path_width : Nat)
    (path_rows : ℚ) (work_mem : Nat) (hashed_p sorted_p : Cost)
    (tuple_fraction : ℚ) (shape : PathShape)
    (hfl : union_foldable .UNION all colTypes larg = true)
    (hfr : union_foldable .UNION all colTypes rarg = true)
    (hok : generate_union_path_shape .UNION all larg rarg colTypes
        colCollations groupClauses refnames_tlist child_tlists can_sort
        can_hash enable_hashagg path_width path_rows work_mem hashed_p
        sorted_p tuple_fraction = .ok shape) :
    ∃ pathlist : List SetOpNode,
      pathlist.length = leafCount (.setOperation .UNION all larg rarg colTypes
        colCollations groupClauses) ∧
      shape = (if all then PathShape.append pathlist
               else PathShape.dedup (PathShape.append pathlist)) := by
  refine ⟨recurse_union_children .UNION all colTypes larg ++
    recurse_union_children .UNION all colTypes rarg, ?_, ?_⟩
  · simp [leafCount, recurse_union_children_foldable_length _ _ _ _ hfl,
      recurse_union_children_foldable_length _ _ _ _ hfr]
  · unfold generate_union_path_shape at hok
    cases all with
    | true =>
      rw [if_pos rfl] at hok
      simp only [Except.ok.injEq] at hok
      subst hok
      rfl
    | false =>
      rw [if_neg (by simp)] at hok
      unfold make_union_unique_shape at hok
      split at hok
      · exact absurd hok (by simp)
      · split at hok
        · exact absurd hok (by simp)
        · split at hok
          · exact absurd hok (by simp)
          · simp only [Except.ok.injEq] at hok
            subst hok
            rfl

/-- Counterexample to C3 as stated: a UNION ALL whose left child is a UNION
DISTINCT over the same column types.  The child fails the fold test
(`all = top_all ∨ all` is false), so the child-path list has 2 entries while
the tree has 3 leaves, and the inner UNION is planned as its own cascade
step. -/
theorem union_flattening_counterexample :
    generate_union_path_shape .UNION true
      (.setOperation .UNION false (.rangeTblRef 1) (.rangeTblRef 2) [23] [0]
        [⟨0, 1, 1⟩])
      (.rangeTblRef 3) [23] [0] [] [sampleRefTle]
      [[sampleInputTle], [sampleInputTle]] true true true 8 1 1000
      ⟨1, 1⟩ ⟨1, 1⟩ 0
      = .ok (.append
          [.setOperation .UNION false (.rangeTblRef 1) (.rangeTblRef 2) [23]
            [0] [⟨0, 1, 1⟩],
           .rangeTblRef 3]) ∧
    leafCount (.setOperation .UNION true
      (.setOperation .UNION false (.rangeTblRef 1) (.rangeTblRef 2) [23] [0]
        [⟨0, 1, 1⟩])
      (.rangeTblRef 3) [23] [0] []) = 3 ∧
    ([SetOpNode.setOperation .UNION false (.rangeTblRef 1) (.rangeTblRef 2)
        [23] [0] [⟨0, 1, 1⟩],
      SetOpNode.rangeTblRef 3] : List SetOpNode).length = 2 :=
  ⟨rfl, rfl, rfl⟩

/-- Witness for the amended C3: a fully foldable tree of three leaves under
UNION ALL yields an Append over exactly three children. -/
theorem union_flattening_leaf_count_witness :
    ∃ pathlist : List SetOpNode,
      pathlist.length = leafCount (.setOperation .UNION true
        (.setOperation .UNION true (.rangeTblRef 1) (.rangeTblRef 2) [23] [0] [])
        (.rangeTblRef 3) [23] [0] []) ∧
      (PathShape.append
        [SetOpNode.rangeTblRef 1, SetOpNode.rangeTblRef 2,
         SetOpNode.rangeTblRef 3]) =
        (if true then PathShape.append pathlist
         else PathShape.dedup (PathShape.append pathlist)) :=
  union_flattening_leaf_count true
    (.setOperation .UNION true (.rangeTblRef 1) (.rangeTblRef 2) [23] [0] [])
    (.rangeTblRef 3) [23] [0] [] [sampleRefTle]
    [[sampleInputTle], [sampleInputTle], [sampleInputTle]] true true true 8 1
    1000 ⟨1, 1⟩ ⟨1, 1⟩ 0
    (.append [SetOpNode.rangeTblRef 1, SetOpNode.rangeTblRef 2,
      SetOpNode.rangeTblRef 3])
    rfl rfl rfl

/-! ## Child ordering of INTERSECT/EXCEPT (C4) -/

/-- C4: in every successful run of the INTERSECT/EXCEPT planner, EXCEPT puts
the left child first; INTERSECT puts the child with the smaller estimated
distinct-group count first, the left child when the estimates are equal
(`dLeftGroups ≤ dRightGroups` puts left first). -/
theorem nonunion_child_ordering
    (op : SetOpType) (all : Bool) (colTypes colCollations : List Nat)
    (groupClauses : List SortGroupClause) (refnames_tlist : List TargetEntry)
    (lpath_rows rpath_rows dLeftGroups dRightGroups : ℚ)
    (lpath_tlist rpath_tlist : List TargetEntry)
    (can_sort can_hash enable_hashagg : Bool) (path_width work_mem : Nat)
    (hashed_p sorted_p : Cost) (tuple_fraction : ℚ) (res : NonunionPath)
    (hok : generate_nonunion_path_shape op all colTypes colCollations
        groupClauses refnames_tlist lpath_rows rpath_rows dLeftGroups
        dRightGroups lpath_tlist rpath_tlist can_sort can_hash enable_hashagg
        path_width work_mem hashed_p sorted_p tuple_fraction = .ok res) :
    (op = .EXCEPT →
      res.firstChild = .left ∧ res.secondChild = .right ∧ res.firstFlag = 0) ∧
    (op = .INTERSECT →
      (dLeftGroups ≤ dRightGroups →
        res.firstChild = .left ∧ res.secondChild = .right ∧
          res.firstFlag = 0) ∧
      (dRightGroups < dLeftGroups →
        res.firstChild = .right ∧ res.secondChild = .left ∧
          res.firstFlag = 1)) := by
  have hfields : res.firstChild = (nonunion_child_order op dLeftGroups dRightGroups).1 ∧
      res.secondChild = (nonunion_child_order op dLeftGroups dRightGroups).2.1 ∧
      res.firstFlag = (nonunion_child_order op dLeftGroups dRightGroups).2.2 := by
    simp only [generate_nonunion_path_shape] at hok
    repeat' split at hok
    all_goals first
      | contradiction
      | (injection hok with h2; subst h2; exact ⟨rfl, rfl, rfl⟩)
      | simp at hok
  obtain ⟨h1, h2, h3⟩ := hfields
  constructor
  · intro hexc
    subst hexc
    rw [h1, h2, h3]
    simp [nonunion_child_order]
  · intro hint
    subst hint
    constructor
    · intro hle
      rw [h1, h2, h3]
      simp [nonunion_child_order, hle]
    · intro hgt
      rw [h1, h2, h3]
      simp [nonunion_child_order, not_le.mpr hgt]

/-- Witness for C4: with left estimated at 2 groups and right at 1, a
successful INTERSECT run puts the right child first (firstFlag 1). -/
theorem nonunion_child_ordering_witness :
    ∃ res : NonunionPath,
      generate_nonunion_path_shape .INTERSECT false [23] [0] [⟨0, 1, 1⟩]
        [sampleRefTle] 5 7 2 1 [sampleInputTle] [sampleInputTle]
        true true true 8 1000 ⟨1, 1⟩ ⟨1, 1⟩ 0 = .ok res ∧
      res.firstChild = .right ∧ res.secondChild = .left ∧ res.firstFlag = 1 := by
  have hok : generate_nonunion_path_shape .INTERSECT false [23] [0] [⟨0, 1, 1⟩]
      [sampleRefTle] 5 7 2 1 [sampleInputTle] [sampleInputTle]
      true true true 8 1000 ⟨1, 1⟩ ⟨1, 1⟩ 0 =
      .ok ⟨.right, .left, 1, false, .INTERSECT, [⟨1, 1, 1⟩], 1, 1, 2, -1,
        [⟨Expr.var ⟨65001, 1, 23, -1, 0, 0, 65001⟩, 1, "a", false, 1⟩,
         ⟨Expr.var ⟨65001, 2, 23, -1, 0, 0, 65001⟩, 2, "flag", true, 0⟩]⟩ := by
    norm_num [generate_nonunion_path_shape, nonunion_child_order,
      generate_append_tlist, compute_append_typmods, append_typmods_scan,
      generate_append_tlist_loop, generate_setop_grouplist,
      generate_setop_grouplist_loop, choose_hashed_setop,
      compare_fractional_path_costs, fractional_cost, MAXALIGN,
      SizeofMinimalTupleHeader, makeTargetEntry, makeVar, sampleInputTle,
      sampleRefTle, exprType, exprTypmod, exprCollation, INT4OID, OUTER_VAR]
    simp
  exact ⟨_, hok,
    ((nonunion_child_ordering _ _ _ _ _ _ _ _ _ _ _ _ _ _ _ _ _ _ _ _ _
      hok).2 rfl).2 (by norm_num)⟩

/-! ## Set operations over no columns (C7) -/

/-- C7: with zero declared (non-discriminator) result columns and hence no
grouping clauses, the INTERSECT/EXCEPT planner fails with the
unsupported-feature error naming the construct, and the dedup step of
UNION DISTINCT fails with the same error naming UNION — for every other
input. -/
theorem setop_over_no_columns_not_supported
    (op : SetOpType) (hop : op = .INTERSECT ∨ op = .EXCEPT) (all : Bool)
    (colCollations : List Nat) (refnames_tlist : List TargetEntry)
    (lpath_rows rpath_rows dLeftGroups dRightGroups : ℚ)
    (lpath_tlist rpath_tlist : List TargetEntry)
    (can_sort can_hash enable_hashagg : Bool) (path_width work_mem : Nat)
    (hashed_p sorted_p : Cost) (tuple_fraction : ℚ)
    (larg rarg : SetOpNode) (child_tlists : List (List TargetEntry))
    (path_rows : ℚ) :
    generate_nonunion_path_shape op all [] colCollations [] refnames_tlist
        lpath_rows rpath_rows dLeftGroups dRightGroups lpath_tlist rpath_tlist
        can_sort can_hash enable_hashagg path_width work_mem hashed_p sorted_p
        tuple_fraction =
      .error ((if op = .INTERSECT then "INTERSECT" else "EXCEPT") ++
        " over no columns is not supported") ∧
    generate_union_path_shape .UNION false larg rarg [] colCollations []
        refnames_tlist child_tlists can_sort can_hash enable_hashagg
        path_width path_rows work_mem hashed_p sorted_p tuple_fraction =
      .error "UNION over no columns is not supported" := by
  constructor
  · unfold generate_nonunion_path_shape nonunion_child_order
    rcases hop with h | h <;> subst h <;> split <;> rfl
  · rfl

/-- Witness for C7: INTERSECT over no columns at a concrete input. -/
theorem setop_over_no_columns_not_supported_witness :
    generate_nonunion_path_shape .INTERSECT false [] [] [] [] 1 1 1 1 [] []
        true true true 8 1000 ⟨1, 1⟩ ⟨1, 1⟩ 0 =
      .error ((if SetOpType.INTERSECT = SetOpType.INTERSECT then "INTERSECT"
        else "EXCEPT") ++ " over no columns is not supported") ∧
    generate_union_path_shape .UNION false (.rangeTblRef 1) (.rangeTblRef 2)
        [] [] [] [] [] true true true 8 1 1000 ⟨1, 1⟩ ⟨1, 1⟩ 0 =
      .error "UNION over no columns is not supported" :=
  setop_over_no_columns_not_supported .INTERSECT (Or.inl rfl) false [] [] 1 1
    1 1 [] [] true true true 8 1000 ⟨1, 1⟩ ⟨1, 1⟩ 0 (.rangeTblRef 1)
    (.rangeTblRef 2) [] 1

/-! ## Privilege-bitmapset translation (C9) -/

/-- The user-attribute loop only adds members. -/
theorem translate_col_privs_user_mono (flihan : Int) (pp : Finset Int)
    (wr : Bool) :
    ∀ (l : List (Option Var)) (attno : Int) (acc : Finset Int) (x : Int),
      x ∈ acc → x ∈ translate_col_privs_user flihan pp wr attno l acc := by
  intro l
  induction l with
  | nil =>
    intro attno acc x hx
    simpa [translate_col_privs_user] using hx
  | cons slot rest ih =>
    intro attno acc x hx
    cases slot with
    | none => simpa only [translate_col_privs_user] using ih (attno + 1) acc x hx
    | some var =>
      simp only [translate_col_privs_user]
      split
      · exact ih _ _ _ (Finset.mem_insert_of_mem hx)
      · exact ih _ _ _ hx

/-- With the whole-row flag set, the user-attribute loop sets the bit of the
translated column of every live slot. -/
theorem translate_col_privs_user_whole_row (flihan : Int) (pp : Finset Int) :
    ∀ (l : List (Option Var)) (attno : Int) (acc : Finset Int) (i : Nat)
      (var : Var), l.get? i = some (some var) →
      (var.varattno - flihan) ∈
        translate_col_privs_user flihan pp true attno l acc := by
  intro l
  induction l with
  | nil => intro _ _ i var h; simp at h
  | cons slot rest ih =>
    intro attno acc i var h
    cases i with
    | zero =>
      simp only [List.get?_cons_zero, Option.some.injEq] at h
      subst h
      simp only [translate_col_privs_user]
      split
      · exact translate_col_privs_user_mono _ _ _ _ _ _ _
          (Finset.mem_insert_self _ _)
      · rename_i hcond
        exact absurd (Or.inl trivial) hcond
    | succ i =>
      have h2 : rest.get? i = some (some var) := by simpa using h
      cases slot with
      | none => simpa only [translate_col_privs_user] using ih _ acc i var h2
      | some v2 =>
        simp only [translate_col_privs_user]
        split
        · exact ih _ _ i var h2
        · exact ih _ _ i var h2

/-- Everything the user-attribute loop adds is the translated column bit of
some live slot. -/
theorem translate_col_privs_user_subset (flihan : Int) (pp : Finset Int)
    (wr : Bool) :
    ∀ (l : List (Option Var)) (attno : Int) (acc : Finset Int) (x : Int),
      x ∈ translate_col_privs_user flihan pp wr attno l acc →
      x ∈ acc ∨ ∃ (i : Nat) (var : Var),
        l.get? i = some (some var) ∧ x = var.varattno - flihan := by
  intro l
  induction l with
  | nil =>
    intro attno acc x hx
    exact Or.inl (by simpa [translate_col_privs_user] using hx)
  | cons slot rest ih =>
    intro attno acc x hx
    cases slot with
    | none =>
      simp only [translate_col_privs_user] at hx
      rcases ih _ _ _ hx with h | ⟨i, var, hi, he⟩
      · exact Or.inl h
      · exact Or.inr ⟨i + 1, var, by simpa using hi, he⟩
    | some v2 =>
      simp only [translate_col_privs_user] at hx
      split at hx
      · rcases ih _ _ _ hx with h | ⟨i, var, hi, he⟩
        · rcases Finset.mem_insert.mp h with he2 | h2
          · exact Or.inr ⟨0, v2, rfl, he2⟩
          · exact Or.inl h2
        · exact Or.inr ⟨i + 1, var, by simpa using hi, he⟩
      · rcases ih _ _ _ hx with h | ⟨i, var, hi, he⟩
        · exact Or.inl h
        · exact Or.inr ⟨i + 1, var, by simpa using hi, he⟩

/-- The system-attribute loop only adds members. -/
theorem translate_col_privs_sys_mono (flihan : Int) (pp : Finset Int) :
    ∀ (n : Nat) (a : Int) (acc : Finset Int) (x : Int),
      x ∈ acc → x ∈ translate_col_privs_sys flihan pp n a acc := by
  intro n
  induction n with
  | zero => intro a acc x hx; simpa [translate_col_privs_sys] using hx
  | succ n ih =>
    intro a acc x hx
    simp only [translate_col_privs_sys]
    split
    · exact ih _ _ _ (Finset.mem_insert_of_mem hx)
    · exact ih _ _ _ hx

/-- Everything the system-attribute loop adds is the (shifted) bit of one of
the `n` attribute numbers it scans. -/
theorem translate_col_privs_sys_subset (flihan : Int) (pp : Finset Int) :
    ∀ (n : Nat) (a : Int) (acc : Finset Int) (x : Int),
      x ∈ translate_col_privs_sys flihan pp n a acc →
      x ∈ acc ∨ ∃ k : Nat, k < n ∧ x = a + k - flihan := by
  intro n
  induction n with
  | zero =>
    intro a acc x hx
    exact Or.inl (by simpa [translate_col_privs_sys] using hx)
  | succ n ih =>
    intro a acc x hx
    simp only [translate_col_privs_sys] at hx
    rcases ih (a + 1) _ x hx with h | ⟨k, hk, he⟩
    · by_cases hc : (a - flihan) ∈ pp
      · rw [if_pos hc] at h
        rcases Finset.mem_insert.mp h with he | h2
        · exact Or.inr ⟨0, by omega, by push_cast; omega⟩
        · exact Or.inl h2
      · rw [if_neg hc] at h
        exact Or.inl h
    · exact Or.inr ⟨k + 1, by omega, by push_cast at he ⊢; omega⟩

/-- Every scanned system attribute whose parent bit is set gets its bit set
by the system-attribute loop. -/
theorem translate_col_privs_sys_covers (flihan : Int) (pp : Finset Int) :
    ∀ (n : Nat) (a : Int) (acc : Finset Int) (attno : Int),
      a ≤ attno → attno < a + n → (attno - flihan) ∈ pp →
      (attno - flihan) ∈ translate_col_privs_sys flihan pp n a acc := by
  intro n
  induction n with
  | zero => intro a acc attno h1 h2 _; omega
  | succ n ih =>
    intro a acc attno h1 h2 h3
    simp only [translate_col_privs_sys]
    by_cases he : attno = a
    · subst he
      rw [if_pos h3]
      exact translate_col_privs_sys_mono _ _ _ _ _ _
        (Finset.mem_insert_self _ _)
    · exact ih (a + 1) _ attno (by omega) (by push_cast at h2 ⊢; omega) h3

/-- C9: when the parent bitmask holds the whole-row bit (attribute 0, stored
at index `-flihan`), the translated bitmask holds the per-column bit of the
target column of every live translated slot; the child whole-row bit itself
is never set; and system-attribute bits (negative attribute numbers) carry
over at the same numbers.  `flihan` is `FirstLowInvalidHeapAttributeNumber`
(negative), and translated slots always carry positive column numbers (as
`make_inh_translation_list` produces). -/
theorem translate_col_privs_whole_row_fanout
    (flihan : Int) (parent_privs : Finset Int)
    (translated_vars : List (Option Var))
    (hneg : flihan < 0)
    (hvars : ∀ (i : Nat) (var : Var),
      translated_vars.get? i = some (some var) → 1 ≤ var.varattno)
    (hwr : (0 - flihan) ∈ parent_privs) :
    (∀ (i : Nat) (var : Var), translated_vars.get? i = some (some var) →
      (var.varattno - flihan) ∈
        translate_col_privs flihan parent_privs translated_vars) ∧
    (0 - flihan) ∉ translate_col_privs flihan parent_privs translated_vars ∧
    (∀ attno : Int, flihan < attno → attno < 0 →
      (attno - flihan) ∈ parent_privs →
      (attno - flihan) ∈
        translate_col_privs flihan parent_privs translated_vars) := by
  have hdec : decide ((0 - flihan) ∈ parent_privs) = true := decide_eq_true hwr
  refine ⟨?_, ?_, ?_⟩
  · intro i var hi
    simp only [translate_col_privs, hdec]
    exact translate_col_privs_user_whole_row flihan parent_privs
      translated_vars 0 _ i var hi
  · intro hmem
    simp only [translate_col_privs, hdec] at hmem
    rcases translate_col_privs_user_subset flihan parent_privs true
        translated_vars 0 _ _ hmem with h | ⟨i, var, hi, he⟩
    · rcases translate_col_privs_sys_subset flihan parent_privs _ _ _ _ h
        with h2 | ⟨k, hk, he⟩
      · simp at h2
      · have hk2 : (k : Int) < -flihan - 1 := by
          have := hk
          omega
        omega
    · have := hvars i var hi
      omega
  · intro attno h1 h2 h3
    simp only [translate_col_privs, hdec]
    apply translate_col_privs_user_mono
    apply translate_col_privs_sys_covers flihan parent_privs _ _ _ attno
      (by omega) (by push_cast; omega) h3

/-- Witness for C9 at `flihan = -8`, `samplePrivs` (system attribute -7 and
the whole-row bit) and `samplePrivVars` (live slots mapping columns 1 and 3
to child columns 1 and 5). -/
theorem translate_col_privs_whole_row_fanout_witness :
    (∀ (i : Nat) (var : Var), samplePrivVars.get? i = some (some var) →
      (var.varattno - (-8)) ∈ translate_col_privs (-8) samplePrivs samplePrivVars) ∧
    (0 - (-8)) ∉ translate_col_privs (-8) samplePrivs samplePrivVars ∧
    (∀ attno : Int, (-8) < attno → attno < 0 →
      (attno - (-8)) ∈ samplePrivs →
      (attno - (-8)) ∈ translate_col_privs (-8) samplePrivs samplePrivVars) :=
  translate_col_privs_whole_row_fanout (-8) samplePrivs samplePrivVars
    (by norm_num)
    (by
      intro i var h
      match i with
      | 0 =>
        simp only [samplePrivVars, List.get?_cons_zero, Option.some.injEq] at h
        subst h
        norm_num
      | 1 => simp [samplePrivVars] at h
      | 2 =>
        simp only [samplePrivVars, List.get?_cons_succ, List.get?_cons_zero,
          Option.some.injEq] at h
        subst h
        norm_num
      | n + 3 => simp [samplePrivVars] at h)
    (by decide)

/-! ## Schema translation of column references (C6) -/

/-- C6: translating a parent column reference (positive `varattno` at the
matching nesting level) through a translation record fails with the schema
error "attribute ... does not exist" when the index exceeds the record's
column count, and likewise when the indexed slot is empty (a dropped parent
column); otherwise the reference is replaced by the recorded translated
expression with its nesting level adjusted.  The embedded mutator is a pure
function — it builds a fresh tree (the C achieves the same by copying every
node) — so the original input expression is structurally untouched by
construction. -/
theorem adjust_appendrel_attrs_var_cases
    (ctx : AdjustContext) (sublevels_up : Nat) (v : Var)
    (hlev : v.varlevelsup = sublevels_up)
    (hno : v.varno = ctx.appinfo.parent_relid)
    (hpos : 0 < v.varattno) :
    ((ctx.appinfo.translated_vars.length : Int) < v.varattno →
      adjust_appendrel_attrs_mutator ctx sublevels_up (.var v) =
        .error ("attribute " ++ toString v.varattno ++ " of relation " ++
          ctx.parent_relname ++ " does not exist")) ∧
    (ctx.appinfo.translated_vars.get? (v.varattno.toNat - 1) = some none →
      adjust_appendrel_attrs_mutator ctx sublevels_up (.var v) =
        .error ("attribute " ++ toString v.varattno ++ " of relation " ++
          ctx.parent_relname ++ " does not exist")) ∧
    (∀ tv : Var,
      ctx.appinfo.translated_vars.get? (v.varattno.toNat - 1) =
        some (some tv) →
      adjust_appendrel_attrs_mutator ctx sublevels_up (.var v) =
        .ok (.var { tv with varlevelsup := tv.varlevelsup + sublevels_up })) := by
  rw [adjust_appendrel_attrs_mutator]
  rw [if_pos ⟨hlev, hno⟩, if_pos hpos]
  refine ⟨?_, ?_, ?_⟩
  · intro hgt
    rw [if_pos hgt]
  · intro hslot
    have hlt : v.varattno.toNat - 1 < ctx.appinfo.translated_vars.length :=
      List.get?_eq_some.mp hslot |>.1
    rw [if_neg (by omega), hslot]
  · intro tv hslot
    have hlt : v.varattno.toNat - 1 < ctx.appinfo.translated_vars.length :=
      List.get?_eq_some.mp hslot |>.1
    rw [if_neg (by omega), hslot]

/-- Witness for C6: a one-slot translation record; parent column 1 is
rewritten to the recorded child Var. -/
theorem adjust_appendrel_attrs_var_cases_witness :
    ((([some ⟨2, 4, 23, -1, 0, 0, 2⟩] : List (Option Var)).length : Int) < 1 →
      adjust_appendrel_attrs_mutator
        ⟨⟨1, 2, 0, 0, [some ⟨2, 4, 23, -1, 0, 0, 2⟩], 1⟩, "p", ["a"]⟩ 0
        (.var ⟨1, 1, 23, -1, 0, 0, 1⟩) =
        .error ("attribute " ++ toString (1 : Int) ++ " of relation " ++
          "p" ++ " does not exist")) ∧
    (([some ⟨2, 4, 23, -1, 0, 0, 2⟩] : List (Option Var)).get?
        ((1 : Int).toNat - 1) = some none →
      adjust_appendrel_attrs_mutator
        ⟨⟨1, 2, 0, 0, [some ⟨2, 4, 23, -1, 0, 0, 2⟩], 1⟩, "p", ["a"]⟩ 0
        (.var ⟨1, 1, 23, -1, 0, 0, 1⟩) =
        .error ("attribute " ++ toString (1 : Int) ++ " of relation " ++
          "p" ++ " does not exist")) ∧
    (∀ tv : Var,
      ([some ⟨2, 4, 23, -1, 0, 0, 2⟩] : List (Option Var)).get?
        ((1 : Int).toNat - 1) = some (some tv) →
      adjust_appendrel_attrs_mutator
        ⟨⟨1, 2, 0, 0, [some ⟨2, 4, 23, -1, 0, 0, 2⟩], 1⟩, "p", ["a"]⟩ 0
        (.var ⟨1, 1, 23, -1, 0, 0, 1⟩) =
        .ok (.var { tv with varlevelsup := tv.varlevelsup + 0 })) :=
  adjust_appendrel_attrs_var_cases
    ⟨⟨1, 2, 0, 0, [some ⟨2, 4, 23, -1, 0, 0, 2⟩], 1⟩, "p", ["a"]⟩ 0
    ⟨1, 1, 23, -1, 0, 0, 1⟩ rfl rfl (by norm_num)

/-! ## Hierarchy expansion (C2) -/

/-- The translation loop always succeeds when the child's descriptor is the
parent's own (`rest` is the suffix of `A` starting at `k`): every column
matches itself positionally with equal type, typmod and collation. -/
theorem make_inh_translation_list_loop_self (A : List PgAttribute)
    (varno : Nat) (same : Bool) (name : String) :
    ∀ (rest : List PgAttribute) (k : Nat),
      (∀ i : Nat, rest.get? i = A.get? (k + i)) →
      ∃ vs, make_inh_translation_list_loop A varno same name k rest = .ok vs := by
  intro rest
  induction rest with
  | nil => intro k _; exact ⟨[], rfl⟩
  | cons att rest ih =>
    intro k h
    have h0 : A.get? k = some att := by
      have := h 0
      simpa using this.symm
    have hshift : ∀ i : Nat, rest.get? i = A.get? (k + 1 + i) := by
      intro i
      have h2 := h (i + 1)
      rw [List.get?_cons_succ] at h2
      rw [h2]
      congr 1
      omega
    obtain ⟨vs, hvs⟩ := ih (k + 1) hshift
    by_cases hd : att.attisdropped = true
    · exact ⟨none :: vs,
        by rw [make_inh_translation_list_loop, if_pos hd, hvs]⟩
    · have hdf : att.attisdropped = false := by
        revert hd; cases att.attisdropped <;> simp
      by_cases hs : same = true
      · exact ⟨some (makeVar varno ((k + 1 : Nat) : Int) att.atttypid
            att.atttypmod att.attcollation 0) :: vs, by
          rw [make_inh_translation_list_loop, if_neg hd, if_pos hs, hvs]⟩
      · exact ⟨some (makeVar varno ((k + 1 : Nat) : Int) att.atttypid
            att.atttypmod att.attcollation 0) :: vs, by
          rw [make_inh_translation_list_loop, if_neg hd, if_neg hs, h0]
          simp only [hdf, Bool.not_false, beq_self_eq_true, Bool.and_self,
            if_true, Option.orElse]
          rw [if_neg (by simp), if_neg (by simp), hvs]⟩

/-- `make_inh_translation_list` succeeds whenever parent and child share one
tuple descriptor. -/
theorem make_inh_translation_list_self (A : List PgAttribute) (varno : Nat)
    (same : Bool) (name : String) :
    ∃ vs, make_inh_translation_list A A same varno name = .ok vs :=
  make_inh_translation_list_loop_self A varno same name A 0 (fun i => by simp)

/-- The expansion loop succeeds when every surviving member shares the
parent's tuple descriptor, and it adds exactly one AppendRelInfo and one
child RTE per member that survives the two skip filters. -/
theorem expand_fold_spec (cat : Catalog) (flihan : Int) (rte : RangeTblEntry)
    (rti : Nat) (parentOID : Nat) (pip : Bool) (rtable_len : Nat) :
    ∀ (oids : List Nat) (acc : List AppendRelInfo × List RangeTblEntry),
      (∀ c ∈ oids, survives_filter cat parentOID pip c = true →
        cat.rel_attrs c = cat.rel_attrs parentOID) →
      ∃ appinfos rtes,
        oids.foldlM (expand_one_child cat flihan rte rti parentOID pip
          rtable_len) acc = .ok (appinfos, rtes) ∧
        appinfos.length = acc.1.length +
          (oids.filter (survives_filter cat parentOID pip)).length ∧
        rtes.length = acc.2.length +
          (oids.filter (survives_filter cat parentOID pip)).length := by
  intro oids
  induction oids with
  | nil =>
    intro acc _
    exact ⟨acc.1, acc.2, rfl, by simp, by simp⟩
  | cons c oids ih =>
    intro acc h
    have htail : ∀ x ∈ oids, survives_filter cat parentOID pip x = true →
        cat.rel_attrs x = cat.rel_attrs parentOID :=
      fun x hx hs2 => h x (List.mem_cons_of_mem _ hx) hs2
    by_cases h1 : (decide (c ≠ parentOID) && cat.is_other_temp c) = true
    · have hstep : expand_one_child cat flihan rte rti parentOID pip
          rtable_len acc c = .ok acc := by
        rw [expand_one_child, if_pos h1]
      have hs : survives_filter cat parentOID pip c = false := by
        simp only [survives_filter, h1, Bool.not_true, Bool.false_and]
      obtain ⟨A, R, hfold, hA, hR⟩ := ih acc htail
      refine ⟨A, R, ?_, ?_, ?_⟩
      · rw [List.foldlM_cons, hstep]
        simpa using hfold
      · rw [List.filter_cons_of_neg (by simp [hs])]
        exact hA
      · rw [List.filter_cons_of_neg (by simp [hs])]
        exact hR
    · by_cases h2 : (pip && !cat.rel_is_leaf_partition c) = true
      · have hstep : expand_one_child cat flihan rte rti parentOID pip
            rtable_len acc c = .ok acc := by
          rw [expand_one_child, if_neg h1, if_pos h2]
        have hs : survives_filter cat parentOID pip c = false := by
          simp only [survives_filter, h2, Bool.not_true, Bool.and_false]
        obtain ⟨A, R, hfold, hA, hR⟩ := ih acc htail
        refine ⟨A, R, ?_, ?_, ?_⟩
        · rw [List.foldlM_cons, hstep]
          simpa using hfold
        · rw [List.filter_cons_of_neg (by simp [hs])]
          exact hA
        · rw [List.filter_cons_of_neg (by simp [hs])]
          exact hR
      · have hsurv : survives_filter cat parentOID pip c = true := by
          have e1 : (decide (c ≠ parentOID) && cat.is_other_temp c) = false := by
            revert h1; cases (decide (c ≠ parentOID) && cat.is_other_temp c) <;>
              simp
          have e2 : (pip && !cat.rel_is_leaf_partition c) = false := by
            revert h2; cases (pip && !cat.rel_is_leaf_partition c) <;> simp
          unfold survives_filter
          rw [e1, e2]
          rfl
        have hattr : cat.rel_attrs c = cat.rel_attrs parentOID :=
          h c (List.mem_cons_self _ _) hsurv
        obtain ⟨vs, hvs⟩ := make_inh_translation_list_self
          (cat.rel_attrs parentOID) (rtable_len + acc.2.length + 1)
          (decide (c = parentOID)) (cat.rel_name c)
        have hvs2 : make_inh_translation_list (cat.rel_attrs parentOID)
            (cat.rel_attrs c) (decide (c = parentOID))
            (rtable_len + acc.2.length + 1) (cat.rel_name c) = .ok vs := by
          rw [hattr]
          exact hvs
        have hstep : ∃ ai ct, expand_one_child cat flihan rte rti parentOID
            pip rtable_len acc c = .ok (acc.1 ++ [ai], acc.2 ++ [ct]) := by
          rw [expand_one_child, if_neg h1, if_neg h2, hvs2]
          exact ⟨_, _, rfl⟩
        obtain ⟨ai, ct, hstep⟩ := hstep
        obtain ⟨A, R, hfold, hA, hR⟩ :=
          ih (acc.1 ++ [ai], acc.2 ++ [ct]) htail
        refine ⟨A, R, ?_, ?_, ?_⟩
        · rw [List.foldlM_cons, hstep]
          simpa using hfold
        · rw [List.filter_cons_of_pos hsurv]
          simp only [List.length_append, List.length_singleton] at hA
          simp only [List.length_cons]
          omega
        · rw [List.filter_cons_of_pos hsurv]
          simp only [List.length_append, List.length_singleton] at hR
          simp only [List.length_cons]
          omega

/-- C2 (amended): hierarchy expansion on a relation whose descendant-id
lookup returns 3 ids, exactly one of which fails the temp-table/leaf
filter, produces exactly 2 translation records and keeps the `inh` flag;
and whenever the filter leaves zero records, expansion produces no
records and clears the `inh` flag, without raising an error.  (The claim's
"at most 1" threshold is refuted by `expand_inherited_rtentry_counterexample`:
the code keeps a single surviving record.) -/
theorem expand_inherited_rtentry_counts
    (cat : Catalog) (flihan : Int) (rte : RangeTblEntry) (rti rtable_len : Nat)
    (hinh : rte.inh = true) (hkind : rte.rtekind = .relation)
    (hsub : cat.has_subclass rte.relid = true)
    (hattrs : ∀ c ∈ cat.find_all_inheritors rte.relid,
      survives_filter cat rte.relid (cat.rel_is_partitioned rte.relid) c = true →
      cat.rel_attrs c = cat.rel_attrs rte.relid) :
    (((cat.find_all_inheritors rte.relid).length = 3 →
      ((cat.find_all_inheritors rte.relid).filter
        (survives_filter cat rte.relid (cat.rel_is_partitioned rte.relid))).length = 2 →
      ∃ r, expand_inherited_rtentry cat flihan rte rti rtable_len = .ok r ∧
        r.appinfos.length = 2 ∧ r.inh = true)) ∧
    (((cat.find_all_inheritors rte.relid).filter
        (survives_filter cat rte.relid (cat.rel_is_partitioned rte.relid))).length = 0 →
      expand_inherited_rtentry cat flihan rte rti rtable_len =
        .ok ⟨false, [], []⟩) := by
  obtain ⟨A, R, hfold, hA, hR⟩ := expand_fold_spec cat flihan rte rti
    rte.relid (cat.rel_is_partitioned rte.relid) rtable_len
    (cat.find_all_inheritors rte.relid) ([], []) hattrs
  constructor
  · intro h3 h2count
    refine ⟨⟨true, A, R⟩, ?_, ?_, rfl⟩
    · rw [expand_inherited_rtentry, if_neg (by simp [hinh]),
        if_neg (by simp [hkind]), if_neg (by simp [hsub]),
        if_neg (by omega), hfold]
      show (if A.length < 1 then Except.ok (⟨false, [], R⟩ : ExpandResult)
            else .ok ⟨true, A, R⟩) = .ok ⟨true, A, R⟩
      rw [if_neg (by simp at hA; omega)]
    · show A.length = 2
      simp at hA
      omega
  · intro h0count
    by_cases hlen : (cat.find_all_inheritors rte.relid).length < 2
    · rw [expand_inherited_rtentry, if_neg (by simp [hinh]),
        if_neg (by simp [hkind]), if_neg (by simp [hsub]), if_pos hlen]
    · have hA0 : A = [] := by
        simp at hA
        exact List.length_eq_zero.mp (by omega)
      have hR0 : R = [] := by
        simp at hR
        exact List.length_eq_zero.mp (by omega)
      subst hA0
      subst hR0
      rw [expand_inherited_rtentry, if_neg (by simp [hinh]),
        if_neg (by simp [hkind]), if_neg (by simp [hsub]),
        if_neg hlen, hfold]
      show (if ([] : List AppendRelInfo).length < 1 then
              Except.ok (⟨false, [], ([] : List RangeTblEntry)⟩ : ExpandResult)
            else .ok ⟨true, [], []⟩) = .ok ⟨false, [], []⟩
      rw [if_pos (by simp)]

/-- Counterexample to C2 as stated: with 3 inheritance-set members of which
only the parent survives (both children are other sessions' temp tables),
the filter leaves exactly 1 record ("at most 1"), yet expansion keeps that
record and leaves the `inh` flag set — the code's threshold is `< 1`, not
`≤ 1`. -/
theorem expand_inherited_rtentry_counterexample :
    ((cexCatalog.find_all_inheritors 1).filter
      (survives_filter cexCatalog 1 false)).length = 1 ∧
    expand_inherited_rtentry cexCatalog (-8) cexRte 1 1 =
      .ok ⟨true, [⟨1, 2, 100, 100, [some ⟨2, 1, 23, -1, 0, 0, 2⟩], 1⟩],
           [⟨.relation, 1, false, ∅, ∅, ∅⟩]⟩ :=
  ⟨rfl, rfl⟩

/-- Witness for the amended C2: `witCatalog` returns 3 ids of which exactly
one (a foreign temp table) fails the filter; expansion yields 2 records and
keeps `inh`. -/
theorem expand_inherited_rtentry_counts_witness :
    ∃ r, expand_inherited_rtentry witCatalog (-8) cexRte 1 1 = .ok r ∧
      r.appinfos.length = 2 ∧ r.inh = true :=
  (expand_inherited_rtentry_counts witCatalog (-8) cexRte 1 1 rfl rfl rfl
    (fun c _ _ => rfl)).1 rfl rfl

end Prepunion
